import Mathlib

/-!
# Verification of the MECCA template interpreter (mecca.go)

A shallow embedding of the interpreter in src/mecca.go (package mecca).
Go strings are modelled as lists of characters (`Str`); the templates and
inputs exercised by the claims are ASCII, where Go's byte offsets coincide
with character offsets.  Go slice expressions that can panic (out-of-range
slicing, negative repetition counts for strings.Repeat) are modelled in an
error monad `M` whose `.panic` value marks a Go runtime panic; `.outOfFuel`
marks that the fuel bound of the interpreter loop was exhausted (the Go code
can genuinely diverge, so the embedding is fuel-indexed).

External collaborators (the lipgloss renderer, the termenv color-profile
query, the file system, the input reader, the CP437 decoder of
golang.org/x/text) are modelled through an explicit environment `Env`;
flushes to the output sink and blocking reads are recorded in an event
trace so that ordering properties can be stated.
-/

namespace Mecca

/-- Go strings, modelled as character lists (ASCII inputs: byte = char). -/
abbrev Str := List Char

/-- Coerce a Lean string literal to the `Str` model. -/
def strOf (s : String) : Str := s.data

/-- The ASCII escape character (0x1B). -/
def escChar : Char := Char.ofNat 27

/-- Errors of the embedding: a Go runtime panic, or fuel exhaustion
(the Go loop can diverge; fuel makes the embedding total). -/
inductive RErr where
  | panic
  | outOfFuel
deriving DecidableEq

/-- Computation monad of the embedding. -/
abbrev M (α : Type) := Except RErr α

/-- First index of character `c` in `s` (model of strings.Index with a
single-character needle; byte offsets = char offsets on ASCII data). -/
def goIndex : Str → Char → Option Nat
  | [], _ => none
  | a :: r, c => if a = c then some 0 else (goIndex r c).map (· + 1)

/-- Character at index `i` (model of Go string indexing s[i], total form). -/
def charAt (s : Str) (i : Nat) : Option Char := (List.drop i s).head?

/-- Model of Go slicing s[a:b]: panics when the bounds are out of range. -/
def goSlice (s : Str) (a b : Nat) : M Str :=
  if a ≤ b ∧ b ≤ s.length then .ok (List.take (b - a) (List.drop a s)) else .error .panic

/-- Model of Go slicing s[a:]: panics when a exceeds the length. -/
def goSliceFrom (s : Str) (a : Nat) : M Str :=
  if a ≤ s.length then .ok (List.drop a s) else .error .panic

/-- Model of strings.Repeat: panics on a negative count (as Go does). -/
def goRepeat (s : Str) (n : Int) : M Str :=
  if n < 0 then .error .panic else .ok (List.flatten (List.replicate n.toNat s))

/-- Model of strings.Split(s, sep) for the single-character separator used
by the interpreter (newline): splitting the empty string yields one empty
piece, exactly as in Go. -/
def splitOnChar : Str → Char → List Str
  | [], _ => [[]]
  | a :: r, c =>
    if a = c then [] :: splitOnChar r c
    else
      match splitOnChar r c with
      | [] => [[a]]
      | l :: ls => (a :: l) :: ls

/-- ASCII decimal digit test. -/
def isDigitChar (c : Char) : Bool := 48 ≤ c.toNat && c.toNat ≤ 57

/-- Value of a list of decimal digits. -/
def digitsVal (ds : Str) : Nat := ds.foldl (fun n c => n * 10 + (c.toNat - 48)) 0

/-- Model of strconv.Atoi: optional sign followed by at least one digit;
syntax errors yield none (the Go error case). -/
def goAtoi (s : Str) : Option Int :=
  match s with
  | [] => none
  | '-' :: r => if r ≠ [] ∧ r.all isDigitChar then some (-(digitsVal r : Int)) else none
  | '+' :: r => if r ≠ [] ∧ r.all isDigitChar then some (digitsVal r : Int) else none
  | _ => if s.all isDigitChar then some (digitsVal s : Int) else none

/-- Embeds parseNumber (mecca.go): folds n*10 + (c - '0') over the runes and
never reports an error, even for non-digits (faithful to the source). -/
def parseNumber (s : Str) : Int := s.foldl (fun n c => n * 10 + ((c.toNat : Int) - 48)) 0

/-- Embeds isNumber (mecca.go): all characters are ASCII digits and the
string is non-empty. -/
def isNumber (s : Str) : Bool := s.all isDigitChar && !s.isEmpty

/-- ASCII model of unicode lower-casing as used by strings.ToLower on the
ASCII data the interpreter handles. -/
def goToLowerChar (c : Char) : Char :=
  if 65 ≤ c.toNat ∧ c.toNat ≤ 90 then Char.ofNat (c.toNat + 32) else c

/-- ASCII model of strings.ToLower. -/
def goToLower (s : Str) : Str := s.map goToLowerChar

/-- ASCII model of upper-casing one character (strings.ToUpper). -/
def goToUpperChar (c : Char) : Char :=
  if 97 ≤ c.toNat ∧ c.toNat ≤ 122 then Char.ofNat (c.toNat - 32) else c

/-- ASCII model of strings.ToUpper. -/
def goToUpper (s : Str) : Str := s.map goToUpperChar

/-- ASCII whitespace (space, tab, newline, carriage return, vertical tab,
form feed), as trimmed by strings.TrimSpace. -/
def isSpaceChar (c : Char) : Bool :=
  c = ' ' || c = '\t' || c = '\n' || c.toNat = 13 || c.toNat = 11 || c.toNat = 12

/-- ASCII model of strings.TrimSpace. -/
def trimSpace (s : Str) : Str :=
  List.reverse (List.dropWhile isSpaceChar (List.reverse (List.dropWhile isSpaceChar s)))

/-- Association-list lookup (model of Go map reads). -/
def lookupA {α : Type} : List (Str × α) → Str → Option α
  | [], _ => none
  | (a, b) :: r, k => if a = k then some b else lookupA r k

/-- Association-list insertion (model of Go map assignment: replace or add). -/
def insertA {α : Type} : List (Str × α) → Str → α → List (Str × α)
  | [], k, v => [(k, v)]
  | (a, b) :: r, k, v => if a = k then (k, v) :: r else (a, b) :: insertA r k v

/-- Embeds colorMapping (mecca.go): color names to ANSI 16-color codes. -/
def colorMapping : List (Str × Str) :=
  [ (strOf "black", strOf "0"), (strOf "red", strOf "1"), (strOf "green", strOf "2"),
    (strOf "yellow", strOf "3"), (strOf "blue", strOf "4"), (strOf "magenta", strOf "5"),
    (strOf "cyan", strOf "6"), (strOf "white", strOf "7"), (strOf "lightblack", strOf "8"),
    (strOf "lightred", strOf "9"), (strOf "lightgreen", strOf "10"),
    (strOf "lightyellow", strOf "11"), (strOf "lightblue", strOf "12"),
    (strOf "lightmagenta", strOf "13"), (strOf "lightcyan", strOf "14"),
    (strOf "lightwhite", strOf "15") ]

/-- Embeds isColorToken (mecca.go): lower-cased name is a key of
colorMapping, or the token starts with a hash. -/
def isColorToken (s : Str) : Bool :=
  match goToLower s with
  | '#' :: _ => true
  | t => (lookupA colorMapping t).isSome

/-- Embeds isValidOptionID (mecca.go): a single ASCII alphanumeric
character (a-z, A-Z, 0-9). -/
def isValidOptionID (s : Str) : Bool :=
  match s with
  | [c] => (97 ≤ c.toNat && c.toNat ≤ 122) || (65 ≤ c.toNat && c.toNat ≤ 90)
      || (48 ≤ c.toNat && c.toNat ≤ 57)
  | _ => false

/-- Hexadecimal digit value. -/
def hexVal (c : Char) : Option Nat :=
  if 48 ≤ c.toNat ∧ c.toNat ≤ 57 then some (c.toNat - 48)
  else if 97 ≤ c.toNat ∧ c.toNat ≤ 102 then some (c.toNat - 87)
  else if 65 ≤ c.toNat ∧ c.toNat ≤ 70 then some (c.toNat - 55)
  else none

/-- Maximal hexadecimal prefix (model of fmt.Sscanf with a %x verb). -/
def hexPrefixVal : Str → Nat → Nat × Bool
  | [], acc => (acc, false)
  | c :: r, acc =>
    match hexVal c with
    | some v => ((hexPrefixVal r (acc * 16 + v)).1, true)
    | none => (acc, false)

/-- Model of Go string(rune(n)): a valid Unicode scalar maps to its
character, anything else to the replacement character U+FFFD. -/
def goRune (n : Int) : Char :=
  if 0 ≤ n ∧ (n.toNat < 55296 ∨ (57344 ≤ n.toNat ∧ n.toNat < 1114112)) then
    Char.ofNat n.toNat
  else Char.ofNat 65533

/-- Embeds decodeUTF8Token (mecca.go): parse the hexadecimal prefix via
Sscanf %x; an input with no leading hex digit is the error case. -/
def decodeUTF8Token (s : Str) : Option Char :=
  match hexPrefixVal s 0 with
  | (_, false) => none
  | (v, true) => some (goRune (v : Int))

/-- Decimal digits of a natural number. -/
def natToDec (n : Nat) : Str := Nat.toDigits 10 n

/-- Model of strconv.Itoa / the %d verb on integers. -/
def intToDec (n : Int) : Str :=
  if n < 0 then '-' :: natToDec n.natAbs else natToDec n.toNat

/-- CSI introducer of the modelled ANSI sequences. -/
def csi : Str := [escChar, '[']

/-- Model of ansi.EraseDisplay (external charmbracelet/x/ansi collaborator). -/
def ansiEraseDisplay (n : Nat) : Str := csi ++ natToDec n ++ ['J']

/-- Model of ansi.EraseLine. -/
def ansiEraseLine (n : Nat) : Str := csi ++ natToDec n ++ ['K']

/-- Model of ansi.CursorPosition row;col (1-indexed on the wire). -/
def ansiCursorPosition (r c : Int) : Str :=
  csi ++ intToDec r ++ [';'] ++ intToDec c ++ ['H']

/-- Model of ansi.CursorUp. -/
def ansiCursorUp (n : Nat) : Str := csi ++ natToDec n ++ ['A']

/-- Model of ansi.CursorDown. -/
def ansiCursorDown (n : Nat) : Str := csi ++ natToDec n ++ ['B']

/-- Model of ansi.CursorForward. -/
def ansiCursorForward (n : Nat) : Str := csi ++ natToDec n ++ ['C']

/-- Model of ansi.CursorBackward. -/
def ansiCursorBackward (n : Nat) : Str := csi ++ natToDec n ++ ['D']

/-- Model of ansi.CursorNextLine. -/
def ansiCursorNextLine (n : Nat) : Str := csi ++ natToDec n ++ ['E']

/-- Model of ansi.SaveCursor (DECSC). -/
def ansiSaveCursor : Str := [escChar, '7']

/-- Model of ansi.RestoreCursor (DECRC). -/
def ansiRestoreCursor : Str := [escChar, '8']

/-- Embeds parseFieldsWithQuotes (mecca.go): split a token's inner content
into fields on space/tab runs, honoring double-quoted sections and
backslash-escaped quotes; the UTF-8 decode of the source is the identity at
the character level of this model. -/
def parseFieldsAux : Str → Bool → Str → List Str → List Str
  | [], _, cur, acc => if cur = [] then acc else acc ++ [cur]
  | '"' :: r, false, cur, acc => parseFieldsAux r true cur acc
  | '"' :: r, true, cur, acc =>
    if cur = [] then parseFieldsAux r false cur acc
    else parseFieldsAux r false [] (acc ++ [cur])
  | '\\' :: '"' :: r, true, cur, acc => parseFieldsAux r true (cur ++ ['"']) acc
  | ' ' :: r, false, cur, acc =>
    parseFieldsAux r false [] (if cur = [] then acc else acc ++ [cur])
  | '\t' :: r, false, cur, acc =>
    parseFieldsAux r false [] (if cur = [] then acc else acc ++ [cur])
  | c :: r, inQ, cur, acc => parseFieldsAux r inQ (cur ++ [c]) acc

/-- Entry point of the field parser. -/
def parseFields (s : Str) : List Str := parseFieldsAux s false [] []

/-- Embeds parseLabels (mecca.go): scan the whole template for
[/labelname] and [label labelname] tokens and record the position just
after the closing bracket.  The source loop's position strictly increases,
so a fuel of length+1 always suffices. -/
def parseLabelsAux (input : Str) : Nat → Nat → List (Str × Nat) → List (Str × Nat)
  | 0, _, acc => acc
  | fuel + 1, pos, acc =>
    match goIndex (List.drop pos input) '[' with
    | none => acc
    | some s0 =>
      let start := s0 + pos
      if charAt input (start + 1) = some '[' then
        parseLabelsAux input fuel (start + 2) acc
      else
        match goIndex (List.drop start input) ']' with
        | none => acc
        | some e0 =>
          let endPos := e0 + start
          let tokenContent := List.take (endPos - (start + 1)) (List.drop (start + 1) input)
          let parts := parseFields tokenContent
          let acc1 :=
            match parts with
            | [] => acc
            | first :: rest =>
              let firstL := goToLower first
              match firstL with
              | '/' :: tl =>
                if tl ≠ [] then insertA acc (goToLower tl) (endPos + 1) else acc
              | _ =>
                if firstL = strOf "label" ∧ rest ≠ [] then
                  insertA acc (goToLower (rest.headD [])) (endPos + 1)
                else acc
          parseLabelsAux input fuel (endPos + 1) acc1

/-- Label table of a template (built once per interpretation pass). -/
def parseLabels (input : Str) : List (Str × Nat) :=
  parseLabelsAux input (input.length + 1) 0 []

/-- Style value: the fields of a lipgloss.Style that the interpreter
mutates (foreground/background color and the boolean attributes).  The
default (all unset) corresponds to renderer.NewStyle(). -/
structure GStyle where
  fg : Option Str := none
  bg : Option Str := none
  bold : Bool := false
  faint : Bool := false
  italic : Bool := false
  underline : Bool := false
  blink : Bool := false
  reverse : Bool := false
  strike : Bool := false
deriving DecidableEq

/-- SGR attribute codes of a style (model of the external lipgloss
renderer's escape assembly). -/
def styleCodes (s : GStyle) : List Str :=
  (if s.bold then [strOf "1"] else []) ++
  (if s.faint then [strOf "2"] else []) ++
  (if s.italic then [strOf "3"] else []) ++
  (if s.underline then [strOf "4"] else []) ++
  (if s.blink then [strOf "5"] else []) ++
  (if s.reverse then [strOf "7"] else []) ++
  (if s.strike then [strOf "9"] else []) ++
  (match s.fg with | some c => [strOf "38;" ++ c] | none => []) ++
  (match s.bg with | some c => [strOf "48;" ++ c] | none => [])

/-- Join strings with a separator character. -/
def joinSep : List Str → Char → Str
  | [], _ => []
  | [a], _ => a
  | a :: r, c => a ++ [c] ++ joinSep r c

/-- Model of lipgloss Style.Render (external collaborator): the default
style renders text unchanged; a non-default style wraps the text between
an SGR prefix built from its fields and an SGR reset. -/
def render (st : GStyle) (text : Str) : Str :=
  if st = {} then text
  else csi ++ joinSep (styleCodes st) ';' ++ ['m'] ++ text ++ csi ++ strOf "0m"

/-- Events recorded by the embedding: a flush of bytes to the output sink,
a blocking single-byte read, a blocking line read, a token span handed to
the dispatcher (processToken), and an invocation of a registered custom
token function. -/
inductive Ev where
  | write (s : Str)
  | readByte
  | readLine
  | dispatch (content : Str)
  | call (name : Str) (args : List Str)
deriving DecidableEq

/-- Saved context for the [link] call stack (embeds fileContext of
types.go; variable values are modelled as strings, their %v rendering). -/
structure FileCtx where
  input : Str
  vars : List (Str × Str)
  includes : List Str
  position : Nat
  output : Str
  style : GStyle
  styleStack : List GStyle
deriving DecidableEq

/-- Environment of external collaborators: the template file system
(template root joined paths are the bare file names, templateRoot being
the default "."), the termenv color-profile query, whether an input reader
is configured, the registered custom tokens (keyed by lower-cased name,
as RegisterToken stores them), and the CP437 decoder. -/
structure Env where
  fs : List (Str × Str)
  hasColor : Bool := true
  hasReader : Bool := false
  registry : List (Str × Nat × (List Str → Str)) := []
  decodeCP437 : Str → Str := fun s => s

/-- Mutable interpreter state (embeds the fields of Interpreter in
types.go), extended by the remaining bytes of the input reader and the
event trace of the run. -/
structure IState where
  styleStack : List GStyle := []
  menuOptions : List (Str × Str) := []
  menuResponse : Str := []
  inMenu : Bool := false
  capturingOption : Bool := false
  currentOptionID : Str := []
  optionBuffer : Str := []
  readlnResponse : Str := []
  questionnaire : List Str := []
  answerOptional : Bool := false
  labels : List (Str × Nat) := []
  shouldQuit : Bool := false
  shouldExit : Bool := false
  gotoTarget : Str := []
  shouldGotoTop : Bool := false
  callStack : List FileCtx := []
  onExitFile : Str := []
  shouldDisplay : Bool := false
  displayFile : Str := []
  linkFile : Str := []
  shouldLink : Bool := false
  colorCondStack : List Bool := []
  moreEnabled : Bool := false
  currentLine : Nat := 0
  terminalHeight : Nat := 0
  moreResponse : Str := []
  lastMoreLine : Nat := 0
  shouldHandleMore : Bool := false
  inputStream : Str := []
  trace : List Ev := []
deriving DecidableEq

/-- Whether output is currently suppressed by the color-conditional stack
(any pushed entry that is true suppresses). -/
def shouldSkipOutput (st : IState) : Bool := st.colorCondStack.any (fun b => b)

/-- Embeds checkAutoMore (mecca.go): prompt when pagination is enabled and
the line counter is within two lines of the terminal height and past the
line of the previous prompt. -/
def checkAutoMore (st : IState) : Bool :=
  st.moreEnabled &&
    (st.terminalHeight > 0 && st.currentLine ≥ st.terminalHeight - 2 &&
      st.currentLine > st.lastMoreLine)

/-- Embeds handleMorePrompt (mecca.go): write the fixed prompt to the
sink, read one byte; y clears the screen and resets the counters, n sets
the quit flag, = continues, anything else is treated as n. -/
def handleMorePrompt (env : Env) (st : IState) : IState :=
  if env.hasReader = false then st
  else
    let st1 : IState := { st with trace := st.trace ++ [Ev.write (strOf "More [Y,n,=]? ")] }
    match st1.inputStream with
    | [] => { st1 with trace := st1.trace ++ [Ev.readByte] }
    | b :: rest =>
      let st2 : IState := { st1 with trace := st1.trace ++ [Ev.readByte], inputStream := rest }
      let c := goToLowerChar b
      if c = 'y' then
        { st2 with moreResponse := ['y'],
                   trace := st2.trace ++ [Ev.write (ansiEraseDisplay 2 ++ ansiCursorPosition 1 1)],
                   currentLine := 0, lastMoreLine := 0 }
      else if c = 'n' then
        { st2 with moreResponse := ['n'], lastMoreLine := st2.currentLine, shouldQuit := true }
      else if c = '=' then
        { st2 with moreResponse := ['='], lastMoreLine := st2.currentLine }
      else
        { st2 with moreResponse := ['n'], shouldQuit := true }

/-- Result of emitting a literal run: either normal continuation, or the
early return taken when an auto-more prompt answers quit (the source
returns the just-flushed, hence empty, output immediately). -/
inductive EmitRes where
  | normal (output : Str) (st : IState)
  | earlyQuit (output : Str) (st : IState)
deriving DecidableEq

/-- Embeds the literal-run emission of the driver loop with auto-more
checks and option capture (mecca.go:404-448 and the identical 499-542):
each line is rendered in the current style unless suppressed, line
counters always advance, an auto-more prompt may flush and prompt between
lines, and captured option text accumulates regardless of suppression. -/
def emitLinesMore (env : Env) : List Str → Bool → GStyle → Str → IState → EmitRes
  | [], _, _, output, st => .normal output st
  | line :: rest, shouldSkip, style, output, st =>
    let isLast := rest = []
    if shouldSkip = false then
      let output1 := output ++ render style line
      let st1 : IState := { st with currentLine := st.currentLine + 1 }
      if isLast then
        let st2 := if st1.capturingOption then { st1 with optionBuffer := st1.optionBuffer ++ line } else st1
        emitLinesMore env rest shouldSkip style output1 st2
      else
        if checkAutoMore st1 then
          let st2 : IState := { st1 with trace := st1.trace ++ [Ev.write output1] }
          let st3 := handleMorePrompt env st2
          if st3.shouldQuit then .earlyQuit [] st3
          else
            let output2 : Str := [] ++ ['\n']
            let st4 : IState := { st3 with currentLine := st3.currentLine + 1 }
            let st5 := if st4.capturingOption then
                { st4 with optionBuffer := st4.optionBuffer ++ line ++ ['\n'] } else st4
            emitLinesMore env rest shouldSkip style output2 st5
        else
          let output2 := output1 ++ ['\n']
          let st2 : IState := { st1 with currentLine := st1.currentLine + 1 }
          let st3 := if st2.capturingOption then
              { st2 with optionBuffer := st2.optionBuffer ++ line ++ ['\n'] } else st2
          emitLinesMore env rest shouldSkip style output2 st3
    else
      let st1 : IState := { st with currentLine := st.currentLine + 1 }
      let st2 : IState := if isLast then st1 else { st1 with currentLine := st1.currentLine + 1 }
      let st3 := if st2.capturingOption then
          { st2 with optionBuffer := st2.optionBuffer ++ line ++ (if isLast then [] else ['\n']) }
        else st2
      emitLinesMore env rest shouldSkip style (if isLast then output else output) st3

/-- Embeds the simpler literal emission used for the escaped-bracket text
and the unmatched-bracket remainder (mecca.go:466-480 and 558-572): no
auto-more checks and no option capture. -/
def emitLinesPlain : List Str → Bool → GStyle → Str → IState → Str × IState
  | [], _, _, output, st => (output, st)
  | line :: rest, shouldSkip, style, output, st =>
    let isLast := rest = []
    let output1 := if shouldSkip = false then output ++ render style line else output
    let st1 : IState := { st with currentLine := st.currentLine + 1 }
    let output2 := if isLast then output1 else (if shouldSkip = false then output1 ++ ['\n'] else output1)
    let st2 : IState := if isLast then st1 else { st1 with currentLine := st1.currentLine + 1 }
    emitLinesPlain rest shouldSkip style output2 st2

/-- Embeds the byte loop of the [enter] token (mecca.go:1261-1278): read
bytes until a newline or carriage return or end of input; a carriage
return consumes (and discards) one following byte.  Returns the read
events and the remaining stream. -/
def enterConsume : Str → List Ev × Str
  | [] => ([Ev.readByte], [])
  | b :: rest =>
    if b = '\n' then ([Ev.readByte], rest)
    else if b.toNat = 13 then
      match rest with
      | [] => ([Ev.readByte, Ev.readByte], [])
      | _ :: rest2 => ([Ev.readByte, Ev.readByte], rest2)
    else
      let (evs, r) := enterConsume rest
      (Ev.readByte :: evs, r)

/-- Variable maps passed per call (map[string]any; the %v rendering of a
value is modelled as the stored string). -/
abbrev Vars := List (Str × Str)

/-- Strip one trailing carriage return (bufio.ScanLines). -/
def stripCR (s : Str) : Str :=
  match s.getLast? with
  | some c => if c.toNat = 13 then s.dropLast else s
  | none => s

/-- Model of one bufio.Scanner line read over the remaining input stream:
none when the stream is exhausted (Scan reports false), otherwise the
line up to (excluding) the newline, with a trailing carriage return
stripped, and the remaining stream. -/
def scanLine (s : Str) : Option (Str × Str) :=
  match s with
  | [] => none
  | _ =>
    match goIndex s '\n' with
    | none => some (stripCR s, [])
    | some i => some (stripCR (List.take i s), List.drop (i + 1) s)

/-- Embeds the option-capture flush shared by the [reset] handler and the
end of interpret (mecca.go:960-965 and 774-779). -/
def optionFlush (st : IState) : IState :=
  if st.capturingOption ∧ st.currentOptionID ≠ [] then
    { st with
      menuOptions := insertA st.menuOptions st.currentOptionID (trimSpace st.optionBuffer),
      capturingOption := false, currentOptionID := [], optionBuffer := [] }
  else st

/-- Embeds the in-place save of a previous option when a new [option]
starts (mecca.go:1172-1175): the buffer is flushed and reset, the
capturing flag stays set. -/
def optionSaveOld (st : IState) : IState :=
  if st.capturingOption ∧ st.currentOptionID ≠ [] then
    { st with
      menuOptions := insertA st.menuOptions st.currentOptionID (trimSpace st.optionBuffer),
      optionBuffer := [] }
  else st

/-- Embeds the foreground-color assignment of the dispatcher: a hash of
length 7 is a true-color value, any other hash is a palette number parsed
by parseNumber and printed with Itoa, otherwise the name is looked up in
colorMapping (token already lower-cased by the caller). -/
def applyFgTok (sty : GStyle) (tok : Str) : GStyle :=
  match tok with
  | '#' :: rest =>
    if tok.length = 7 then { sty with fg := some tok }
    else { sty with fg := some (intToDec (parseNumber rest)) }
  | _ =>
    match lookupA colorMapping tok with
    | some c => { sty with fg := some c }
    | none => sty

/-- Background-color assignment (same shape as the foreground case). -/
def applyBgTok (sty : GStyle) (tok : Str) : GStyle :=
  match tok with
  | '#' :: rest =>
    if tok.length = 7 then { sty with bg := some tok }
    else { sty with bg := some (intToDec (parseNumber rest)) }
  | _ =>
    match lookupA colorMapping tok with
    | some c => { sty with bg := some c }
    | none => sty

/-- Embeds convertFromCharset (mecca.go): only cp437 is supported, via the
external decoder of the environment. -/
def convertFromCharset (env : Env) (data cs : Str) : Str :=
  if goToLower cs = strOf "cp437" then env.decodeCP437 data
  else strOf "[ERROR: unsupported charset " ++ cs ++ strOf "]"

/-- The inline error for interactive tokens without a configured reader. -/
def errNoReader : Str := strOf "[ERROR: no reader configured, use WithReader() option]"

/-- The missing-file error text (fmt %v of the os.ReadFile *PathError,
with template root "." so that the joined path is the file name). -/
def errOpen (filename : Str) : Str :=
  strOf "open " ++ filename ++ strOf ": no such file or directory"

/-- The inline error appended when the [link] call stack is full. -/
def errLinkDepth : Str := strOf "[ERROR: link nesting too deep (max 8 levels)]"

/-- Embeds the [link] handling of the driver loop (mecca.go:699-742),
parameterized by the file-rendering callback of the current fuel level:
with eight saved contexts the inline depth error is appended and nothing
is pushed or rendered; otherwise the context is pushed, the linked file
rendered, and the top context popped back (position intentionally not
restored).  Returns the updated output, style, template, variables,
include chain and state for the rest of the iteration. -/
def linkStep (dispfile : Env → Str → Vars → List Str → IState → M (Str × IState)) (env : Env)
    (original : Str) (vars : Vars) (includes : List Str) (position : Nat) (output : Str)
    (style : GStyle) (st : IState) : M (Str × GStyle × Str × Vars × List Str × IState) :=
  if st.shouldLink && decide (st.linkFile ≠ []) then
    if st.callStack.length ≥ 8 then
      pure (output ++ errLinkDepth,
        style, original, vars, includes, { st with shouldLink := false, linkFile := [] })
    else do
      let ctx : FileCtx := ⟨original, vars, includes, position, output, style, st.styleStack⟩
      let (linkedOut, st2) ←
        dispfile env st.linkFile vars includes { st with callStack := ctx :: st.callStack }
      match st2.callStack with
      | [] =>
        pure (output ++ linkedOut, style, original, vars, includes,
          { st2 with shouldLink := false, linkFile := [] })
      | ctx2 :: rest =>
        pure (output ++ linkedOut, ctx2.style, ctx2.input, ctx2.vars, ctx2.includes,
          { st2 with callStack := rest, styleStack := ctx2.styleStack,
                     shouldLink := false, linkFile := [] })
  else pure (output, style, original, vars, includes, st)

/-- Embeds the argument selection for a registered token
(mecca.go:1510-1524): with positive declared arity and at least that many
following fields, the next arity fields; otherwise the empty list. -/
def registryArgs (argc : Nat) (parts : List Str) (i : Nat) : List Str :=
  if argc > 0 ∧ i + argc < parts.length then List.take argc (List.drop (i + 1) parts) else []

/-- Embeds the body of the [line] case (mecca.go:1012-1021): parse the
length with strconv.Atoi and repeat the whole character field that many
times (strings.Repeat panics on a negative length); a non-integer length
produces nothing. -/
def lineTok (lenF c : Str) : M Str :=
  match goAtoi lenF with
  | some len => goRepeat c len
  | none => .ok []

/-- One fuel level of the interpreter: the mutually recursive functions
of the embedding, collected in a structure so that the fuel recursion is a
plain iteration (each level calls only the previous level). -/
structure Engine where
  /-- Embeds Interpreter.interpret (mecca.go:351-789): reset the per-call
  state, build the label table, then run the driver loop from position 0
  with the default style. -/
  interpret : Env → Str → Vars → List Str → IState → M (Str × IState)
  /-- Embeds the driver loop body (mecca.go:388-771), one iteration per
  fuel unit.  Faithfully reproduces the source's search for the closing
  bracket in input[start:] (an absolute offset) while start is an offset
  into the remaining input. -/
  interpLoop : Env → Str → Vars → List Str → Nat → Str → GStyle → Bool → Bool → IState → M (Str × IState)
  /-- Embeds the control-signal handling after a token (mecca.go:674-770):
  quit, exit, display, link with its depth-8 bound and context
  save/restore, top, goto, and the advance past the token. -/
  loopPost : Env → Str → Vars → List Str → Nat → Nat → Nat → Str → GStyle → Bool → IState → M (Str × IState)
  /-- Embeds the end of interpret (mecca.go:773-788): flush a dangling
  option capture, then run a registered on-exit file. -/
  interpFinish : Env → Vars → List Str → Str → IState → M (Str × IState)
  /-- Embeds processDisplayFile (mecca.go:1679-1697), also used for [link]
  through processLinkFile and for on-exit files: read the file, reject a
  file already on the include chain, then interpret it with the chain
  extended. -/
  processDisplayFile : Env → Str → Vars → List Str → IState → M (Str × IState)
  /-- Embeds ExecTemplate (mecca.go:282-290) as used by [include]: read the
  file and interpret it with a fresh include chain holding only this file
  name.  The Go error return is modelled as the error text. -/
  execTemplate : Env → Str → Vars → IState → M (Except Str Str × IState)
  /-- Embeds Interpreter.processToken (mecca.go:857-1537): parse the fields
  and run the dispatcher over them.  Returns (result, shouldFlush,
  skipLineAfter) together with the threaded style and state. -/
  processTok : Env → Str → GStyle → Vars → List Str → IState → M (Str × Bool × Bool × GStyle × IState)
  /-- The dispatcher loop over the parsed fields (the for/switch of
  processToken).  The index jumps mirror the source's manual i increments;
  the cases for cleol, color, nocolor and endcolor fall out of the switch
  into the default handling, exactly as the Go switch (whose first three
  have no statements and whose cleol case lacks a continue). -/
  processParts : Env → List Str → Nat → Str → Bool → Bool → GStyle → Vars → List Str → IState → M (Str × Bool × Bool × GStyle × IState)
  /-- The default token handling after the keyword switch
  (mecca.go:1424-1534): label definitions, color tokens with an optional
  inline on-background, U+ and decimal code tokens, variable substitution,
  registered custom tokens, and the unrecognized-token error. -/
  postSwitch : Env → List Str → Nat → Str → Str → Bool → Bool → GStyle → Vars → List Str → IState → M (Str × Bool × Bool × GStyle × IState)
  /-- Variable substitution, registered-token dispatch, and the
  unrecognized-token fallthrough (mecca.go:1495-1534).  A registered token
  with positive arity receives the next arity fields only when that many
  fields follow, and an empty list otherwise; the invocation is recorded in
  the trace. -/
  varsRegistry : Env → List Str → Nat → Str → Str → Bool → Bool → GStyle → Vars → List Str → IState → M (Str × Bool × Bool × GStyle × IState)

/-- The zero-fuel engine: every component reports fuel exhaustion. -/
def engineZero : Engine where
  interpret := fun _ _ _ _ _ => .error .outOfFuel
  interpLoop := fun _ _ _ _ _ _ _ _ _ _ => .error .outOfFuel
  loopPost := fun _ _ _ _ _ _ _ _ _ _ _ => .error .outOfFuel
  interpFinish := fun _ _ _ _ _ => .error .outOfFuel
  processDisplayFile := fun _ _ _ _ _ => .error .outOfFuel
  execTemplate := fun _ _ _ _ => .error .outOfFuel
  processTok := fun _ _ _ _ _ _ => .error .outOfFuel
  processParts := fun _ _ _ _ _ _ _ _ _ _ => .error .outOfFuel
  postSwitch := fun _ _ _ _ _ _ _ _ _ _ _ => .error .outOfFuel
  varsRegistry := fun _ _ _ _ _ _ _ _ _ _ _ => .error .outOfFuel

/-- One step of the engine: each component is the fuel+1 body of the
corresponding source function, with recursive calls taken from the
previous fuel level. -/
def engineStep (prev : Engine) : Engine where
  interpret := fun env input vars includes st0 =>
    let st1 : IState := { st0 with
      styleStack := [], menuOptions := [], menuResponse := [], inMenu := false,
      capturingOption := false, currentOptionID := [], optionBuffer := [],
      readlnResponse := [], shouldQuit := false, shouldExit := false,
      gotoTarget := [], shouldGotoTop := false, colorCondStack := [],
      currentLine := 0, lastMoreLine := 0, shouldHandleMore := false }
    let st2 : IState := { st1 with
      terminalHeight := if st1.terminalHeight = 0 then 24 else st1.terminalHeight }
    let st3 : IState := { st2 with labels := parseLabels input }
    prev.interpLoop env input vars includes 0 [] {} false false st3

  interpLoop := fun env original vars includes position output style skipToEOL skipLine st =>
    if position < original.length then
      let remaining := List.drop position original
      match goIndex remaining '[' with
      | none =>
        match emitLinesMore env (splitOnChar remaining '\n') (shouldSkipOutput st) style output st with
        | .earlyQuit o s => .ok (o, s)
        | .normal o s => prev.interpFinish env vars includes o s
      | some start =>
        if charAt remaining (start + 1) = some '[' then
          let literal := List.take (start + 1) remaining
          let (o, s) := emitLinesPlain (splitOnChar literal '\n') (shouldSkipOutput st) style output st
          prev.interpLoop env original vars includes (position + start + 2) o style skipToEOL skipLine s
        else
          let literal := List.take start remaining
          match emitLinesMore env (splitOnChar literal '\n') (shouldSkipOutput st) style output st with
          | .earlyQuit o s => .ok (o, s)
          | .normal out1 st1 =>
            match goIndex (List.drop start original) ']' with
            | none =>
              let remainder := List.drop start original
              let (o, s) := emitLinesPlain (splitOnChar remainder '\n') (shouldSkipOutput st1) style out1 st1
              prev.interpFinish env vars includes o s
            | some endRel => do
              let tokenContent ← goSlice remaining (start + 1) (start + endRel)
              let parts := parseFields tokenContent
              let first := goToLower (parts.headD [])
              let isInteractive := decide (parts ≠ []) &&
                (first = strOf "menuwait" || first = strOf "readln" || first = strOf "enter")
              let (out2, st2) :=
                if isInteractive && env.hasReader then
                  (([] : Str), { st1 with trace := st1.trace ++ [Ev.write out1] })
                else (out1, st1)
              let st2a : IState := { st2 with trace := st2.trace ++ [Ev.dispatch tokenContent] }
              match ← prev.processTok env tokenContent style vars includes st2a with
              | (tokenResult, shouldFlush, skipLineAfter, style2, st3) =>
                if skipToEOL || skipLineAfter || skipLine then do
                  let tail ← goSliceFrom remaining (start + endRel + 1)
                  match goIndex tail '\n' with
                  | none => prev.interpFinish env vars includes out2 st3
                  | some lineEnd =>
                    prev.interpLoop env original vars includes
                      (position + start + endRel + 1 + lineEnd + 1) out2 style2 false false st3
                else
                  let (out3, st4) :=
                    if shouldSkipOutput st3 = false then
                      (out2 ++ tokenResult,
                        { st3 with currentLine :=
                            st3.currentLine + (tokenResult.filter (fun c => c = '\n')).length })
                    else (out2, st3)
                  if shouldFlush then
                    let st5 : IState := { st4 with trace := st4.trace ++ [Ev.write out3] }
                    if st5.shouldHandleMore then
                      let st6 : IState := { handleMorePrompt env st5 with shouldHandleMore := false }
                      if st6.shouldQuit then .ok ([], st6)
                      else prev.loopPost env original vars includes position start endRel [] style2 skipLine st6
                    else prev.loopPost env original vars includes position start endRel [] style2 skipLine st5
                  else
                    if checkAutoMore st4 && decide (out3.length > 0) then
                      let st5 : IState := { st4 with trace := st4.trace ++ [Ev.write out3] }
                      let st6 := handleMorePrompt env st5
                      if st6.shouldQuit then .ok ([], st6)
                      else prev.loopPost env original vars includes position start endRel [] style2 skipLine st6
                    else prev.loopPost env original vars includes position start endRel out3 style2 skipLine st4
    else prev.interpFinish env vars includes output st

  loopPost := fun env original vars includes position start endRel output style skipLine st =>
    if st.shouldQuit then prev.interpFinish env vars includes output st
    else if st.shouldExit then
      prev.interpFinish env vars includes output { st with callStack := [] }
    else if st.shouldDisplay && decide (st.displayFile ≠ []) then do
      let (dOut, st1) ← prev.processDisplayFile env st.displayFile vars includes st
      prev.interpFinish env vars includes (output ++ dOut)
        { st1 with shouldDisplay := false, displayFile := [] }
    else do
      let (out1, style1, original1, vars1, includes1, st1) ←
        linkStep prev.processDisplayFile env original vars includes position output style st
      if st1.shouldGotoTop then
        prev.interpLoop env original1 vars1 includes1 0 out1 style1 false skipLine
          { st1 with shouldGotoTop := false, labels := parseLabels original1 }
      else
        match (if decide (st1.gotoTarget ≠ []) then lookupA st1.labels st1.gotoTarget else none) with
        | some labelPos =>
          prev.interpLoop env original1 vars1 includes1 labelPos out1 style1 false skipLine
            { st1 with gotoTarget := [] }
        | none => do
          let consumed ← goSlice (List.drop position original) 0 (start + endRel + 1)
          let skipLine1 := if consumed.contains '\n' then false else skipLine
          prev.interpLoop env original1 vars1 includes1 (position + start + endRel + 1) out1 style1
            false skipLine1 { st1 with gotoTarget := [] }

  interpFinish := fun env vars includes output st =>
    let st1 := optionFlush st
    if st1.onExitFile ≠ [] then do
      let (exOut, st2) ← prev.processDisplayFile env st1.onExitFile vars includes st1
      .ok (output ++ exOut, { st2 with onExitFile := [] })
    else .ok (output, st1)

  processDisplayFile := fun env filename vars includes st =>
    match lookupA env.fs filename with
    | none => .ok (strOf "[ERROR: " ++ errOpen filename ++ strOf "]", st)
    | some data =>
      if includes.contains filename then
        .ok (strOf "[ERROR: " ++ filename ++ strOf " included recursively]", st)
      else
        prev.interpret env data vars (includes ++ [filename]) st

  execTemplate := fun env filename vars st =>
    match lookupA env.fs filename with
    | none => .ok (.error (errOpen filename), st)
    | some data => do
      let (o, st1) ← prev.interpret env data vars [filename] st
      .ok (.ok o, st1)

  processTok := fun env content style vars includes st =>
    prev.processParts env (parseFields content) 0 [] false false style vars includes st

  processParts := fun env parts i result sf slf style vars includes st =>
    if i < parts.length then
      let part := parts.getD i []
      let pl := goToLower part
      if pl = strOf "cls" then
        prev.processParts env parts (i + 1)
          (result ++ ansiEraseDisplay 2 ++ ansiCursorPosition 1 1) sf slf style vars includes st
      else if pl = strOf "cleos" then
        prev.processParts env parts (i + 1) (result ++ ansiEraseDisplay 0) sf slf style vars includes st
      else if pl = strOf "cleol" then
        prev.postSwitch env parts i part (result ++ ansiEraseLine 0) sf slf style vars includes st
      else if pl = strOf "blink" then
        prev.processParts env parts (i + 1) result sf slf { style with blink := true } vars includes st
      else if pl = strOf "steady" then
        prev.processParts env parts (i + 1) result sf slf { style with blink := false } vars includes st
      else if pl = strOf "bright" ∨ pl = strOf "bold" then
        prev.processParts env parts (i + 1) result sf slf { style with bold := true } vars includes st
      else if pl = strOf "underline" then
        prev.processParts env parts (i + 1) result sf slf { style with underline := true } vars includes st
      else if pl = strOf "italic" then
        prev.processParts env parts (i + 1) result sf slf { style with italic := true } vars includes st
      else if pl = strOf "dim" then
        prev.processParts env parts (i + 1) result sf slf { style with faint := true } vars includes st
      else if pl = strOf "reverse" then
        prev.processParts env parts (i + 1) result sf slf { style with reverse := true } vars includes st
      else if pl = strOf "strike" then
        prev.processParts env parts (i + 1) result sf slf { style with strike := true } vars includes st
      else if pl = strOf "bell" then
        prev.processParts env parts (i + 1) (result ++ [Char.ofNat 7]) sf slf style vars includes st
      else if pl = strOf "bs" then
        prev.processParts env parts (i + 1) (result ++ [Char.ofNat 8]) sf slf style vars includes st
      else if pl = strOf "tab" then
        prev.processParts env parts (i + 1) (result ++ [Char.ofNat 9]) sf slf style vars includes st
      else if pl = strOf "pause" then
        prev.processParts env parts (i + 1) result sf slf style vars includes st
      else if pl = strOf "comment" then
        let j := if i + 1 < parts.length then parts.length else i + 1
        prev.processParts env parts j result sf slf style vars includes st
      else if pl = strOf "repeat" then
        if i + 1 < parts.length then
          let charF := parts.getD (i + 1) []
          let ct : Int × Nat :=
            if i + 2 < parts.length then
              match goAtoi (parts.getD (i + 2) []) with
              | some n => (n, i + 3)
              | none => (1, i + 2)
            else (1, i + 2)
          if charF.length > 0 then do
            let rep ← goRepeat [charF.headD ' '] ct.1
            prev.processParts env parts ct.2 (result ++ rep) sf slf style vars includes st
          else prev.processParts env parts ct.2 result sf slf style vars includes st
        else prev.processParts env parts (i + 1) result sf slf style vars includes st
      else if pl = strOf "reset" then
        prev.processParts env parts (i + 1) result sf slf {} vars includes (optionFlush st)
      else if pl = strOf "save" then
        prev.processParts env parts (i + 1) result sf slf style vars includes
          { st with styleStack := style :: st.styleStack }
      else if pl = strOf "load" then
        match st.styleStack with
        | [] => prev.processParts env parts (i + 1) result sf slf style vars includes st
        | top :: restStack =>
          prev.processParts env parts (i + 1) result sf slf top vars includes
            { st with styleStack := restStack }
      else if pl = strOf "locate" then
        if i + 2 < parts.length then
          let result1 :=
            match goAtoi (parts.getD (i + 1) []), goAtoi (parts.getD (i + 2) []) with
            | some r, some c => result ++ ansiCursorPosition (r + 1) (c + 1)
            | _, _ => result
          prev.processParts env parts (i + 3) result1 sf slf style vars includes st
        else prev.processParts env parts (i + 1) result sf slf style vars includes st
      else if pl = strOf "cr" then
        prev.processParts env parts (i + 1) (result ++ [Char.ofNat 13]) sf slf style vars includes st
      else if pl = strOf "lf" then
        prev.processParts env parts (i + 1) (result ++ ansiCursorNextLine 1) sf slf style vars includes st
      else if pl = strOf "up" then
        prev.processParts env parts (i + 1) (result ++ ansiCursorUp 1) sf slf style vars includes st
      else if pl = strOf "down" then
        prev.processParts env parts (i + 1) (result ++ ansiCursorDown 1) sf slf style vars includes st
      else if pl = strOf "right" then
        prev.processParts env parts (i + 1) (result ++ ansiCursorForward 1) sf slf style vars includes st
      else if pl = strOf "left" then
        prev.processParts env parts (i + 1) (result ++ ansiCursorBackward 1) sf slf style vars includes st
      else if pl = strOf "savecursor" then
        prev.processParts env parts (i + 1) (result ++ ansiSaveCursor) sf slf style vars includes st
      else if pl = strOf "restorecursor" then
        prev.processParts env parts (i + 1) (result ++ ansiRestoreCursor) sf slf style vars includes st
      else if pl = strOf "line" then
        if i + 2 < parts.length then do
          let rep ← lineTok (parts.getD (i + 1) []) (parts.getD (i + 2) [])
          prev.processParts env parts (i + 3) (result ++ rep) sf slf style vars includes st
        else prev.processParts env parts (i + 1) result sf slf style vars includes st
      else if pl = strOf "include" then
        if i + 1 < parts.length then
          let filename := parts.getD (i + 1) []
          if includes.contains filename then
            .ok (result ++ strOf "[ERROR: " ++ filename ++ strOf " included recursively]",
              sf, slf, style, st)
          else do
            let (r, st1) ← prev.execTemplate env filename vars st
            let result1 :=
              match r with
              | .ok o => result ++ o
              | .error e => result ++ strOf "[ERROR: " ++ e ++ strOf "]"
            prev.processParts env parts (i + 2) result1 sf slf style vars includes st1
        else prev.processParts env parts (i + 1) result sf slf style vars includes st
      else if pl = strOf "display" then
        if i + 1 < parts.length then
          prev.processParts env parts (i + 2) result sf slf style vars includes
            { st with shouldDisplay := true, displayFile := parts.getD (i + 1) [] }
        else prev.processParts env parts (i + 1) result sf slf style vars includes st
      else if pl = strOf "link" then
        if i + 1 < parts.length then
          prev.processParts env parts (i + 2) result sf slf style vars includes
            { st with shouldLink := true, linkFile := parts.getD (i + 1) [] }
        else prev.processParts env parts (i + 1) result sf slf style vars includes st
      else if pl = strOf "bg" then
        if i + 1 < parts.length ∧ shouldSkipOutput st = false then
          prev.processParts env parts (i + 2) result sf slf
            (applyBgTok style (goToLower (parts.getD (i + 1) []))) vars includes st
        else prev.processParts env parts (i + 1) result sf slf style vars includes st
      else if pl = strOf "fg" then
        if i + 1 < parts.length ∧ shouldSkipOutput st = false then
          prev.processParts env parts (i + 2) result sf slf
            (applyFgTok style (goToLower (parts.getD (i + 1) []))) vars includes st
        else prev.processParts env parts (i + 1) result sf slf style vars includes st
      else if pl = strOf "on" then
        if i + 1 < parts.length then
          let nextPart := goToLower (parts.getD (i + 1) [])
          if nextPart = strOf "exit" ∧ i + 2 < parts.length then
            prev.processParts env parts (i + 3) result sf slf style vars includes
              { st with onExitFile := parts.getD (i + 2) [] }
          else
            let style1 := if shouldSkipOutput st = false then
                applyBgTok style (goToLower (parts.getD (i + 1) [])) else style
            prev.processParts env parts (i + 2) result sf slf style1 vars includes st
        else prev.processParts env parts (i + 1) result sf slf style vars includes st
      else if pl = strOf "onexit" then
        if i + 1 < parts.length then
          prev.processParts env parts (i + 2) result sf slf style vars includes
            { st with onExitFile := parts.getD (i + 1) [] }
        else prev.processParts env parts (i + 1) result sf slf style vars includes st
      else if pl = strOf "ansi" then
        if i + 1 < parts.length then
          let filename := parts.getD (i + 1) []
          let result1 :=
            match lookupA env.fs filename with
            | some d => result ++ d
            | none => result ++ strOf "[ERROR: " ++ errOpen filename ++ strOf "]"
          prev.processParts env parts (i + 2) result1 sf slf style vars includes st
        else prev.processParts env parts (i + 1) result sf slf style vars includes st
      else if pl = strOf "ansiconvert" then
        if i + 2 < parts.length then
          let filename := parts.getD (i + 1) []
          let charset := parts.getD (i + 2) []
          let result1 :=
            match lookupA env.fs filename with
            | some d => result ++ convertFromCharset env d charset
            | none => result ++ strOf "[ERROR: " ++ errOpen filename ++ strOf "]"
          prev.processParts env parts (i + 3) result1 sf slf style vars includes st
        else prev.processParts env parts (i + 1) result sf slf style vars includes st
      else if pl = strOf "menu" then
        prev.processParts env parts (i + 1) result sf slf style vars includes
          { st with inMenu := true, menuOptions := [] }
      else if pl = strOf "option" then
        if i + 1 < parts.length then
          let optionID := goToLower (parts.getD (i + 1) [])
          if optionID.length = 1 ∧ isValidOptionID optionID then
            prev.processParts env parts (i + 2) (result ++ render style (goToUpper optionID))
              sf slf style vars includes
              { optionSaveOld st with capturingOption := true, currentOptionID := optionID }
          else
            prev.processParts env parts (i + 2)
              (result ++ render style (strOf "[ERROR: invalid option_id " ++ parts.getD (i + 1) []
                ++ strOf ", must be single alphanumeric character]"))
              sf slf style vars includes st
        else prev.processParts env parts (i + 1) result sf slf style vars includes st
      else if pl = strOf "menuwait" then
        if env.hasReader = false then
          prev.processParts env parts (i + 1) (result ++ render style errNoReader)
            sf slf style vars includes st
        else
          match st.inputStream with
          | [] =>
            prev.processParts env parts (i + 1) result true slf style vars includes
              { st with trace := st.trace ++ [Ev.readByte], menuResponse := [] }
          | b :: restS =>
            let inputChar : Str := [goToLowerChar b]
            let resp := if (lookupA st.menuOptions inputChar).isSome then inputChar else []
            prev.processParts env parts (i + 1) result true slf style vars includes
              { st with trace := st.trace ++ [Ev.readByte], inputStream := restS,
                        menuResponse := resp }
      else if pl = strOf "readln" then
        if env.hasReader = false then
          prev.processParts env parts (i + 1) (result ++ render style errNoReader)
            sf slf style vars includes st
        else
          let st0 : IState := { st with trace := st.trace ++ [Ev.readLine] }
          match scanLine st0.inputStream with
          | none =>
            let st1 : IState := { st0 with readlnResponse := [] }
            if st1.answerOptional = false ∧ i + 1 < parts.length then
              prev.processParts env parts (i + 2) result true slf style vars includes
                { st1 with questionnaire :=
                    st1.questionnaire ++ [parts.getD (i + 1) [] ++ strOf ": "] }
            else prev.processParts env parts (i + 1) result true slf style vars includes st1
          | some (line, restS) =>
            let st1 : IState := { st0 with readlnResponse := line, inputStream := restS }
            if i + 1 < parts.length then
              prev.processParts env parts (i + 2) result true slf style vars includes
                { st1 with questionnaire :=
                    st1.questionnaire ++ [parts.getD (i + 1) [] ++ strOf ": " ++ line] }
            else
              prev.processParts env parts (i + 1) result true slf style vars includes
                { st1 with questionnaire := st1.questionnaire ++ [line] }
      else if pl = strOf "enter" then
        if env.hasReader = false then
          prev.processParts env parts (i + 1) (result ++ render style errNoReader)
            sf slf style vars includes st
        else
          let er := enterConsume st.inputStream
          prev.processParts env parts (i + 1)
            (result ++ render style (strOf "Press ENTER to continue")) true slf style vars includes
            { st with trace := st.trace ++ er.1, inputStream := er.2 }
      else if pl = strOf "choice" then
        if i + 1 < parts.length then
          let expected := goToLower (parts.getD (i + 1) [])
          let resp : Str :=
            if st.menuResponse ≠ [] then st.menuResponse
            else if st.readlnResponse ≠ [] then [goToLowerChar (st.readlnResponse.headD ' ')]
            else []
          let slf1 := if goToLower resp ≠ expected then true else slf
          prev.processParts env parts (i + 2) result sf slf1 style vars includes st
        else prev.processParts env parts (i + 1) result sf slf style vars includes st
      else if pl = strOf "ifentered" then
        if i + 1 < parts.length then
          let expected := goToLower (parts.getD (i + 1) [])
          let resp := if st.readlnResponse ≠ [] then goToLower st.readlnResponse else []
          let slf1 := if resp ≠ expected then true else slf
          prev.processParts env parts (i + 2) result sf slf1 style vars includes st
        else prev.processParts env parts (i + 1) result sf slf style vars includes st
      else if pl = strOf "top" then
        prev.processParts env parts (i + 1) result sf slf style vars includes
          { st with shouldGotoTop := true }
      else if pl = strOf "goto" ∨ pl = strOf "jump" then
        if i + 1 < parts.length then
          prev.processParts env parts (i + 2) result sf slf style vars includes
            { st with gotoTarget := goToLower (parts.getD (i + 1) []) }
        else prev.processParts env parts (i + 1) result sf slf style vars includes st
      else if pl = strOf "quit" then
        prev.processParts env parts (i + 1) result sf slf style vars includes
          { st with shouldQuit := true }
      else if pl = strOf "exit" then
        prev.processParts env parts (i + 1) result sf slf style vars includes
          { st with shouldExit := true }
      else if pl = strOf "label" then
        let j := if i + 1 < parts.length then i + 2 else i + 1
        prev.processParts env parts j result sf slf style vars includes st
      else if pl = strOf "ansopt" then
        prev.processParts env parts (i + 1) result sf slf style vars includes
          { st with answerOptional := true }
      else if pl = strOf "ansreq" then
        prev.processParts env parts (i + 1) result sf slf style vars includes
          { st with answerOptional := false }
      else if pl = strOf "store" then
        if st.menuResponse ≠ [] then
          if i + 1 < parts.length then
            prev.processParts env parts (i + 2) result sf slf style vars includes
              { st with questionnaire :=
                  st.questionnaire ++ [parts.getD (i + 1) [] ++ strOf ": " ++ st.menuResponse] }
          else
            prev.processParts env parts (i + 1) result sf slf style vars includes
              { st with questionnaire := st.questionnaire ++ [st.menuResponse] }
        else prev.processParts env parts (i + 1) result sf slf style vars includes st
      else if pl = strOf "write" then
        if i + 1 < parts.length then
          prev.processParts env parts (i + 2) result sf slf style vars includes
            { st with questionnaire := st.questionnaire ++ [parts.getD (i + 1) []] }
        else prev.processParts env parts (i + 1) result sf slf style vars includes st
      else if pl = strOf "color" ∨ pl = strOf "nocolor" ∨ pl = strOf "endcolor" then
        prev.postSwitch env parts i part result sf slf style vars includes st
      else if pl = strOf "colour" then
        prev.processParts env parts (i + 1) result sf slf style vars includes
          { st with colorCondStack := (!env.hasColor) :: st.colorCondStack }
      else if pl = strOf "nocolour" then
        prev.processParts env parts (i + 1) result sf slf style vars includes
          { st with colorCondStack := env.hasColor :: st.colorCondStack }
      else if pl = strOf "endcolour" then
        match st.colorCondStack with
        | [] => prev.processParts env parts (i + 1) result sf slf style vars includes st
        | _ :: r =>
          prev.processParts env parts (i + 1) result sf slf style vars includes
            { st with colorCondStack := r }
      else if pl = strOf "copy" then
        if i + 1 < parts.length ∧ shouldSkipOutput st = false then
          let filename := parts.getD (i + 1) []
          let result1 :=
            match lookupA env.fs filename with
            | some d => result ++ d
            | none => result ++ strOf "[ERROR: " ++ errOpen filename ++ strOf "]"
          prev.processParts env parts (i + 2) result1 sf slf style vars includes st
        else prev.processParts env parts (i + 1) result sf slf style vars includes st
      else if pl = strOf "more" then
        if env.hasReader = false then
          prev.processParts env parts (i + 1) (result ++ render style errNoReader)
            sf slf style vars includes st
        else
          prev.processParts env parts (i + 1) result true slf style vars includes
            { st with shouldHandleMore := true }
      else if pl = strOf "moreon" then
        prev.processParts env parts (i + 1) result sf slf style vars includes
          { st with moreEnabled := true }
      else if pl = strOf "moreoff" then
        prev.processParts env parts (i + 1) result sf slf style vars includes
          { st with moreEnabled := false }
      else prev.postSwitch env parts i part result sf slf style vars includes st
    else .ok (result, sf, slf, style, st)

  postSwitch := fun env parts i part result sf slf style vars includes st =>
    if charAt part 0 = some '/' ∧ part.length > 1 then
      prev.processParts env parts (i + 1) result sf slf style vars includes st
    else if isColorToken part ∧ shouldSkipOutput st = false then
      let style1 := applyFgTok style (goToLower part)
      if i + 2 < parts.length ∧ goToLower (parts.getD (i + 1) []) = strOf "on" then
        prev.processParts env parts (i + 3) result sf slf
          (applyBgTok style1 (goToLower (parts.getD (i + 2) []))) vars includes st
      else prev.processParts env parts (i + 1) result sf slf style1 vars includes st
    else if charAt part 0 = some 'U' ∧ charAt part 1 = some '+' ∧ part.length > 2 then
      match decodeUTF8Token (List.drop 2 part) with
      | some r =>
        let text : Str := [r]
        let result1 := if shouldSkipOutput st = false then result ++ render style text else result
        let st1 := if st.capturingOption then
            { st with optionBuffer := st.optionBuffer ++ text } else st
        prev.processParts env parts (i + 1) result1 sf slf style vars includes st1
      | none => prev.varsRegistry env parts i part result sf slf style vars includes st
    else if isNumber part then
      let text : Str := [goRune (parseNumber part)]
      let result1 := if shouldSkipOutput st = false then result ++ render style text else result
      let st1 := if st.capturingOption then
          { st with optionBuffer := st.optionBuffer ++ text } else st
      prev.processParts env parts (i + 1) result1 sf slf style vars includes st1
    else prev.varsRegistry env parts i part result sf slf style vars includes st

  varsRegistry := fun env parts i part result sf slf style vars includes st =>
    match lookupA vars part with
    | some v =>
      let result1 := if shouldSkipOutput st = false then result ++ render style v else result
      let st1 := if st.capturingOption then
          { st with optionBuffer := st.optionBuffer ++ v } else st
      prev.processParts env parts (i + 1) result1 sf slf style vars includes st1
    | none =>
      match lookupA env.registry (goToLower part) with
      | some tok =>
        let args := registryArgs tok.1 parts i
        let text := tok.2 args
        let result1 := if shouldSkipOutput st = false then result ++ render style text else result
        let st1 : IState := { st with trace := st.trace ++ [Ev.call (goToLower part) args] }
        let st2 := if st1.capturingOption then
            { st1 with optionBuffer := st1.optionBuffer ++ text } else st1
        let j := if tok.1 > 0 ∧ i + tok.1 < parts.length then i + tok.1 + 1 else i + 1
        prev.processParts env parts j result1 sf slf style vars includes st2
      | none =>
        let result1 := if shouldSkipOutput st = false then
            result ++ render style (strOf "[UNRECOGNIZED TOKEN \"" ++ part ++ strOf "\"]")
          else result
        prev.processParts env parts (i + 1) result1 sf slf style vars includes st

/-- The fuel-indexed interpreter engine. -/
def engine (n : Nat) : Engine := Nat.rec engineZero (fun _ ih => engineStep ih) n

/-- Embeds Interpreter.interpret (mecca.go:351-789) at a given fuel. -/
def interpret (fuel : Nat) : Env → Str → Vars → List Str → IState → M (Str × IState) :=
  (engine fuel).interpret

/-- Embeds Interpreter.processToken (mecca.go:857-1537) at a given fuel. -/
def processTok (fuel : Nat) : Env → Str → GStyle → Vars → List Str → IState → M (Str × Bool × Bool × GStyle × IState) :=
  (engine fuel).processTok

/-- Embeds ExecTemplate (mecca.go:282-290) at a given fuel. -/
def execTemplate (fuel : Nat) : Env → Str → Vars → IState → M (Except Str Str × IState) :=
  (engine fuel).execTemplate

/-- The dispatcher loop over parsed fields, at a given fuel. -/
def processParts (fuel : Nat) : Env → List Str → Nat → Str → Bool → Bool → GStyle → Vars → List Str → IState → M (Str × Bool × Bool × GStyle × IState) :=
  (engine fuel).processParts

/-- Embeds processDisplayFile (mecca.go:1679-1697) at a given fuel. -/
def processDisplayFile (fuel : Nat) : Env → Str → Vars → List Str → IState → M (Str × IState) :=
  (engine fuel).processDisplayFile

/-- Embeds the MenuResponse accessor (mecca.go:202-204). -/
def MenuResponse (st : IState) : Str := st.menuResponse

/-- Result projection: the rendered output of a successful run. -/
def outOf (r : M (Str × IState)) : Option Str :=
  match r with
  | .ok (o, _) => some o
  | .error _ => none

/-- Result projection: the final state of a successful run. -/
def stOf (r : M (Str × IState)) : Option IState :=
  match r with
  | .ok (_, s) => some s
  | .error _ => none

/-- Result projection: the error of a failed run. -/
def errOf {α : Type} (r : M α) : Option RErr :=
  match r with
  | .ok _ => none
  | .error e => some e

/-- The token spans handed to the dispatcher, in order, of a trace. -/
def dispatches (t : List Ev) : List Str :=
  t.filterMap fun e => match e with | .dispatch c => some c | _ => none

/-- The registered-token invocations of a trace. -/
def tokenCalls (t : List Ev) : List (Str × List Str) :=
  t.filterMap fun e => match e with | .call n a => some (n, a) | _ => none

/-- Result projection: the dispatcher result string of processToken. -/
def ptokOut (r : M (Str × Bool × Bool × GStyle × IState)) : Option Str :=
  match r with
  | .ok (res, _, _, _, _) => some res
  | .error _ => none

/-- Result projection: the final state of processToken. -/
def ptokSt (r : M (Str × Bool × Bool × GStyle × IState)) : Option IState :=
  match r with
  | .ok (_, _, _, _, s) => some s
  | .error _ => none

/-- The nine-file chain used to exercise the depth bound: f1 links f2,
..., f8 links f9. -/
def linkFsC8 : List (Str × Str) :=
  [ (strOf "f1.mec", strOf "[link f2.mec]"), (strOf "f2.mec", strOf "[link f3.mec]"),
    (strOf "f3.mec", strOf "[link f4.mec]"), (strOf "f4.mec", strOf "[link f5.mec]"),
    (strOf "f5.mec", strOf "[link f6.mec]"), (strOf "f6.mec", strOf "[link f7.mec]"),
    (strOf "f7.mec", strOf "[link f8.mec]"), (strOf "f8.mec", strOf "[link f9.mec]"),
    (strOf "f9.mec", strOf "NINE") ]

/-- The cyclic pair of templates: a.mec includes b.mec and vice versa. -/
def envC5 : Env :=
  { fs := [(strOf "a.mec", strOf "[include b.mec]"), (strOf "b.mec", strOf "[include a.mec]")] }

def lowerAlnum1 (s : Str) : Bool :=
  match s with
  | [c] => (97 ≤ c.toNat && c.toNat ≤ 122) || (48 ≤ c.toNat && c.toNat ≤ 57)
  | _ => false

def MenuInv (st : IState) : Prop :=
  (∀ kv ∈ st.menuOptions, lowerAlnum1 kv.1 = true) ∧
  (st.menuResponse = [] ∨ lowerAlnum1 st.menuResponse = true) ∧
  (st.currentOptionID = [] ∨ lowerAlnum1 st.currentOptionID = true)

def emitSt (r : EmitRes) : IState :=
  match r with
  | .normal _ s => s
  | .earlyQuit _ s => s

structure EngineMenuInv (e : Engine) : Prop where
  interp : ∀ {env input vars includes st pr},
    e.interpret env input vars includes st = .ok pr → MenuInv pr.2
  loop : ∀ {env original vars includes pos output style a b st pr}, MenuInv st →
    e.interpLoop env original vars includes pos output style a b st = .ok pr → MenuInv pr.2
  post : ∀ {env original vars includes pos start endR output style c st pr}, MenuInv st →
    e.loopPost env original vars includes pos start endR output style c st = .ok pr →
    MenuInv pr.2
  finish : ∀ {env vars includes output st pr}, MenuInv st →
    e.interpFinish env vars includes output st = .ok pr → MenuInv pr.2
  disp : ∀ {env f vars includes st pr}, MenuInv st →
    e.processDisplayFile env f vars includes st = .ok pr → MenuInv pr.2
  exec : ∀ {env f vars st pr}, MenuInv st →
    e.execTemplate env f vars st = .ok pr → MenuInv pr.2
  ptok : ∀ {env c style vars includes st out}, MenuInv st →
    e.processTok env c style vars includes st = .ok out → MenuInv out.2.2.2.2
  pparts : ∀ {env parts i result sf slf style vars includes st out}, MenuInv st →
    e.processParts env parts i result sf slf style vars includes st = .ok out →
    MenuInv out.2.2.2.2
  pswitch : ∀ {env parts i part result sf slf style vars includes st out}, MenuInv st →
    e.postSwitch env parts i part result sf slf style vars includes st = .ok out →
    MenuInv out.2.2.2.2
  vreg : ∀ {env parts i part result sf slf style vars includes st out}, MenuInv st →
    e.varsRegistry env parts i part result sf slf style vars includes st = .ok out →
    MenuInv out.2.2.2.2

/-- Decidable equality on the computation monad, used by concrete witnesses. -/
instance {e a : Type} [DecidableEq e] [DecidableEq a] : DecidableEq (Except e a) := fun x y =>
  match x, y with
  | .ok u, .ok v =>
    if h : u = v then .isTrue (by rw [h]) else .isFalse (fun hx => h (Except.ok.inj hx))
  | .error u, .error v =>
    if h : u = v then .isTrue (by rw [h]) else .isFalse (fun hx => h (Except.error.inj hx))
  | .ok _, .error _ => .isFalse (fun hx => Except.noConfusion hx)
  | .error _, .ok _ => .isFalse (fun hx => Except.noConfusion hx)

/-- Environment for the C10 witness run: no files, reader attached. -/
def c10env : Env := { fs := [], hasReader := true }

/-- Template for the C10 witness run. -/
def c10tmpl : Str := strOf "[menu option a option b menuwait]"

/-- Initial state for the C10 witness run: the reader will deliver an
uppercase byte A. -/
def c10st : IState := { inputStream := strOf "A" }

/-- Result pair of the C10 witness run. -/
def c10pr : Str × IState := (interpret 60 c10env c10tmpl [] [] c10st).toOption.getD ([], {})

/-- The engine unfolds one level per fuel unit. -/
theorem engine_succ (n : Nat) : engine (n + 1) = engineStep (engine n) := rfl

/-! ## Claim C1

The driver computes the closing-bracket offset by searching
input[start:] although start is an offset into the remaining input
(mecca.go:543), so from the second token on the dispatched span is not
the content between that token's brackets. -/

/-- C1: refuted on the code (code bug).  In interpret("[red]X[reset]Y")
the second span handed to the dispatcher is "re", not "reset", and the
trailing "et]Y" (including Y) is rendered as literal text in the still
active red style rather than Y in the default style. -/
theorem c1_token_span_bug :
    (stOf (interpret 60 { fs := [] } (strOf "[red]X[reset]Y") [] [] {})).map
        (fun s => dispatches s.trace) = some [strOf "red", strOf "re"] ∧
    outOf (interpret 60 { fs := [] } (strOf "[red]X[reset]Y") [] [] {}) =
      some (render { fg := some (strOf "1") } (strOf "X") ++
        render { fg := some (strOf "1") } (strOf "[UNRECOGNIZED TOKEN \"re\"]") ++
        render { fg := some (strOf "1") } (strOf "et]Y")) := by
  exact ⟨by decide, by decide⟩

/-! ## Claim C2

In the Go switch the cases for "color", "nocolor" and "endcolor" have
empty statement lists (mecca.go:1371,1378,1385); Go cases do not fall
through, so these three spellings do nothing and fall into the default
handling, which emits an unrecognized-token error; only the "colour"
spellings act on the color-condition stack. -/

/-- C2: refuted on the code (code bug).  Processing [color] (resp.
[nocolor], [endcolor]) leaves the color-condition stack unchanged and
emits an inline unrecognized-token error, while the -our spellings push
and pop as specified; consequently [nocolor]HIDDEN on a color terminal
renders HIDDEN (preceded by the inline error) instead of suppressing it,
whereas [nocolour]HIDDEN suppresses it. -/
theorem c2_color_empty_case_bug :
    ((ptokSt (processTok 20 { fs := [] } (strOf "color") {} [] [] {})).map
        IState.colorCondStack = some [] ∧
      ptokOut (processTok 20 { fs := [] } (strOf "color") {} [] [] {}) =
        some (strOf "[UNRECOGNIZED TOKEN \"color\"]")) ∧
    ((ptokSt (processTok 20 { fs := [] } (strOf "nocolor") {} [] [] {})).map
        IState.colorCondStack = some [] ∧
      ptokOut (processTok 20 { fs := [] } (strOf "nocolor") {} [] [] {}) =
        some (strOf "[UNRECOGNIZED TOKEN \"nocolor\"]")) ∧
    (ptokSt (processTok 20 { fs := [] } (strOf "endcolor") {} [] []
        { colorCondStack := [true] })).map IState.colorCondStack = some [true] ∧
    (ptokSt (processTok 20 { fs := [] } (strOf "colour") {} [] [] {})).map
        IState.colorCondStack = some [false] ∧
    (ptokSt (processTok 20 { fs := [], hasColor := true } (strOf "nocolour") {} [] [] {})).map
        IState.colorCondStack = some [true] ∧
    (ptokSt (processTok 20 { fs := [] } (strOf "endcolour") {} [] []
        { colorCondStack := [true] })).map IState.colorCondStack = some [] ∧
    outOf (interpret 60 { fs := [], hasColor := true } (strOf "[nocolour]HIDDEN") [] [] {}) =
      some [] ∧
    outOf (interpret 60 { fs := [], hasColor := true } (strOf "[nocolor]HIDDEN") [] [] {}) =
      some (strOf "[UNRECOGNIZED TOKEN \"nocolor\"]HIDDEN") := by
  refine ⟨⟨by decide, by decide⟩, ⟨by decide, by decide⟩, by decide, by decide, by decide,
    by decide, by decide, by decide⟩

/-! ## Claim C3

shouldQuit set by [quit] inside a linked file is never cleared when the
caller's context is restored (mecca.go:723-741), so the caller's loop
breaks at its next token (mecca.go:675) instead of running to its end. -/

/-- C3: refuted on the code (code bug).  With b.mec = "[quit]", the
caller "[link b.mec]AB[bold    ]C" resumes after the link and renders
"AB", but the leaked shouldQuit flag stops it right after its next token:
the final "C" is never rendered and the flag is still set when interpret
returns. -/
theorem c3_quit_leaks_into_caller :
    outOf (interpret 200 { fs := [(strOf "b.mec", strOf "[quit]")] }
      (strOf "[link b.mec]AB[bold    ]C") [] [] {}) = some (strOf "AB") ∧
    (stOf (interpret 200 { fs := [(strOf "b.mec", strOf "[quit]")] }
      (strOf "[link b.mec]AB[bold    ]C") [] [] {})).map IState.shouldQuit = some true := by
  exact ⟨by decide, by decide⟩

/-! ## Claim C4

A [line] (or [repeat]) token whose count field parses as a negative
integer reaches strings.Repeat with a negative count, which panics
(mecca.go:1017, 952); the render call aborts instead of degrading. -/

/-- C4: refuted on the code (code bug).  interpret("[line -1 -]") and
interpret("[repeat x -2]") abort with a Go panic (strings.Repeat with a
negative count) instead of rendering literal text or an inline error. -/
theorem c4_negative_repeat_panics :
    errOf (interpret 60 { fs := [] } (strOf "[line -1 -]") [] [] {}) = some .panic ∧
    errOf (interpret 60 { fs := [] } (strOf "[repeat x -2]") [] [] {}) = some .panic := by
  exact ⟨by decide, by decide⟩

/-! ## Claim C7

The pre-token flush (mecca.go:585-592) writes only the output
accumulated before the token; the "Press ENTER to continue" prompt of
[enter] is appended to the unflushed result inside processToken and the
blocking byte read happens immediately afterwards (mecca.go:1256-1278),
so the prompt reaches the sink only after the read returns. -/

/-- C7: refuted on the code (code bug).  In the event trace of
interpret("Hello[enter]") with a configured reader, the write that
carries the prompt text occurs after the blocking read: the trace is
[write "Hello", dispatch "enter", readByte, write "Press ENTER to
continue"], so the prompt is not flushed before the read. -/
theorem c7_enter_prompt_flushed_after_read :
    (stOf (interpret 60 { fs := [], hasReader := true } (strOf "Hello[enter]") [] []
        { inputStream := strOf "\n" })).map IState.trace =
      some [Ev.write (strOf "Hello"), Ev.dispatch (strOf "enter"), Ev.readByte,
        Ev.write (strOf "Press ENTER to continue")] := by
  decide

/-! ## Claim C6

The [line] handler repeats the whole character field, not its first
character (mecca.go:1017: strings.Repeat(char, length) with char the
entire field). -/

/-- C6: counterexample to the claim as stated.  [line 2 ab] produces
"abab" (two repetitions of the whole field), not "aa" (two repetitions
of the first character of the field). -/
theorem c6_line_first_char_counterexample :
    outOf (interpret 60 { fs := [] } (strOf "[line 2 ab]") [] [] {}) = some (strOf "abab") ∧
    strOf "abab" ≠ strOf "aa" := by
  exact ⟨by decide, by decide⟩

/-- C6 as amended: for every length field that parses as a non-negative
integer n, [line] appends exactly n repetitions of the whole character
field c (so [line 10 -] is exactly ten dashes, and [line 2 ab] is
"abab"); a non-integer length field silently produces no output. -/
theorem c6_line_amended (lenF c : Str) (n : Nat) :
    (goAtoi lenF = some (n : Int) → lineTok lenF c = .ok (List.flatten (List.replicate n c))) ∧
    (goAtoi lenF = none → lineTok lenF c = .ok []) ∧
    outOf (interpret 60 { fs := [] } (strOf "[line 10 -]") [] [] {}) =
      some (strOf "----------") ∧
    outOf (interpret 60 { fs := [] } (strOf "[line 2 ab]") [] [] {}) = some (strOf "abab") := by
  refine ⟨fun h => ?_, fun h => ?_, by decide, by decide⟩
  · simp [lineTok, h, goRepeat]
  · simp [lineTok, h]

/-- Witness for c6_line_amended at the length field "2" and character
field "ab". -/
theorem c6_line_amended_witness :
    goAtoi (strOf "2") = some ((2 : Nat) : Int) ∧
    lineTok (strOf "2") (strOf "ab") = .ok (List.flatten (List.replicate 2 (strOf "ab"))) :=
  ⟨by decide, (c6_line_amended (strOf "2") (strOf "ab") 2).1 (by decide)⟩

/-! ## Claim C8

The link handler (mecca.go:699-717) refuses to push when eight contexts
are already saved: it appends the inline depth error, clears the link
flags, and never invokes the file renderer. -/

/-- C8: confirmed.  First, for every file-rendering callback and every
state with at least eight saved contexts and a pending link, the link
step appends exactly the inline depth error, pushes nothing (the call
stack of the result is the unchanged st.callStack) and never calls the
renderer (the result does not depend on dispfile).  Second, rendering a
file that links nine levels deep yields exactly the depth error as
output (the ninth file's content NINE is absent) with an empty final
call stack. -/
theorem c8_link_depth_bound (dispfile : Env → Str → Vars → List Str → IState → M (Str × IState))
    (env : Env) (original : Str) (vars : Vars) (includes : List Str) (position : Nat)
    (output : Str) (style : GStyle) (st : IState)
    (hlen : 8 ≤ st.callStack.length) (hlink : st.shouldLink = true) (hfile : st.linkFile ≠ []) :
    linkStep dispfile env original vars includes position output style st =
      .ok (output ++ errLinkDepth, style, original, vars, includes,
        { st with shouldLink := false, linkFile := [] }) ∧
    outOf (interpret 400 { fs := linkFsC8 } (strOf "[link f1.mec]") [] [] {}) =
      some errLinkDepth ∧
    (stOf (interpret 400 { fs := linkFsC8 } (strOf "[link f1.mec]") [] [] {})).map
      (fun s => s.callStack.length) = some 0 := by
  refine ⟨?_, by decide, by decide⟩
  unfold linkStep
  rw [hlink]
  simp [hfile, hlen]
  rfl

/-- Witness for c8_link_depth_bound: a concrete state with eight saved
contexts and a pending link to f9.mec. -/
theorem c8_link_depth_bound_witness :
    linkStep (fun _ _ _ _ s => .ok ([], s)) { fs := [] } [] [] [] 0 [] {}
      { callStack := List.replicate 8 (FileCtx.mk [] [] [] 0 [] {} []),
        shouldLink := true, linkFile := strOf "f9.mec" } =
      .ok (errLinkDepth, {}, [], [], [],
        { callStack := List.replicate 8 (FileCtx.mk [] [] [] 0 [] {} []),
          shouldLink := false, linkFile := [] }) := by
  have h := (c8_link_depth_bound (fun _ _ _ _ s => .ok ([], s)) { fs := [] } [] [] [] 0 [] {}
    { callStack := List.replicate 8 (FileCtx.mk [] [] [] 0 [] {} []),
      shouldLink := true, linkFile := strOf "f9.mec" }
    (by decide) (by decide) (by decide)).1
  simpa using h

/-! ## Claim C9

Registered custom tokens (mecca.go:1510-1530): with declared arity k > 0
the function receives the next k fields exactly when at least k fields
follow the token name, and the empty list otherwise. -/

/-- C9: confirmed.  registryArgs (the argument selection used by the
dispatcher) yields exactly the next argc fields when at least argc
fields follow position i, and the empty list when fewer follow; an
arity-2 token invoked as [mytok onlyonearg] is called with no arguments,
and invoked as [mytok a1 a2 extra] with exactly [a1, a2]. -/
theorem c9_custom_token_arity (argc : Nat) (parts : List Str) (i : Nat) (hpos : 0 < argc) :
    (argc ≤ parts.length - (i + 1) →
      registryArgs argc parts i = List.take argc (List.drop (i + 1) parts) ∧
      (registryArgs argc parts i).length = argc) ∧
    (parts.length - (i + 1) < argc → registryArgs argc parts i = []) ∧
    (stOf (interpret 60 { fs := [], registry := [(strOf "mytok", 2, fun _ => strOf "X")] }
        (strOf "[mytok onlyonearg]") [] [] {})).map (fun s => tokenCalls s.trace) =
      some [(strOf "mytok", [])] ∧
    (stOf (interpret 60 { fs := [], registry := [(strOf "mytok", 2, fun _ => strOf "X")] }
        (strOf "[mytok a1 a2 extra]") [] [] {})).map (fun s => tokenCalls s.trace) =
      some [(strOf "mytok", [strOf "a1", strOf "a2"])] := by
  refine ⟨fun h => ?_, fun h => ?_, by decide, by decide⟩
  · have hc : argc > 0 ∧ i + argc < parts.length := ⟨hpos, by omega⟩
    rw [registryArgs, if_pos hc]
    refine ⟨rfl, ?_⟩
    simp only [List.length_take, List.length_drop]
    omega
  · rw [registryArgs, if_neg]
    intro hc
    omega

/-- Witness for c9_custom_token_arity at arity 2 with three following
fields (takes exactly two) and with one following field (takes none). -/
theorem c9_custom_token_arity_witness :
    registryArgs 2 [strOf "t", strOf "a1", strOf "a2", strOf "x"] 0 = [strOf "a1", strOf "a2"] ∧
    registryArgs 2 [strOf "t", strOf "only"] 0 = [] :=
  ⟨((c9_custom_token_arity 2 [strOf "t", strOf "a1", strOf "a2", strOf "x"] 0 (by decide)).1
      (by decide)).1,
    (c9_custom_token_arity 2 [strOf "t", strOf "only"] 0 (by decide)).2.1 (by decide)⟩

/-! ## Claim C5

The include chain is not passed down by [include]: ExecTemplate
(mecca.go:289) interprets the included file with the fresh chain
[filename], so only direct self-inclusion is detected and an indirect
cycle (a.mec includes b.mec includes a.mec) recurses forever. -/

/-- An Except computation whose first component diverges makes the whole
bind diverge. -/
theorem bindErrProp {α β : Type} (x : M α) (f : α → M β) (h : x = .error .outOfFuel) :
    x >>= f = .error .outOfFuel := by
  rw [h]; rfl

/-- An Except computation whose first component succeeds diverges when
its continuation diverges. -/
theorem bindOkProp {α β : Type} (x : M α) (a : α) (f : α → M β) (hx : x = .ok a)
    (h : f a = .error .outOfFuel) : x >>= f = .error .outOfFuel := by
  rw [hx]; exact h

set_option maxHeartbeats 4000000 in
/-- Interpreting either file of the two-file include cycle exhausts every
fuel bound: the mutual inclusion never terminates, because each
[include] restarts the chain at just its own file name. -/
theorem c5_cycle_diverges : ∀ (fuel : Nat) (st : IState),
    interpret fuel envC5 (strOf "[include b.mec]") [] [strOf "a.mec"] st = .error .outOfFuel ∧
    interpret fuel envC5 (strOf "[include a.mec]") [] [strOf "b.mec"] st = .error .outOfFuel := by
  intro fuel
  induction fuel using Nat.strong_induction_on with
  | _ fuel ih =>
    rcases fuel with _ | _ | _ | _ | _ | m
    · exact fun st => ⟨rfl, rfl⟩
    · exact fun st => ⟨rfl, rfl⟩
    · exact fun st => ⟨rfl, rfl⟩
    · exact fun st => ⟨rfl, rfl⟩
    · exact fun st => ⟨rfl, rfl⟩
    · intro st
      have ihA : ∀ s : IState,
          interpret m envC5 (strOf "[include b.mec]") [] [strOf "a.mec"] s = .error .outOfFuel :=
        fun s => (ih m (by omega) s).1
      have ihB : ∀ s : IState,
          interpret m envC5 (strOf "[include a.mec]") [] [strOf "b.mec"] s = .error .outOfFuel :=
        fun s => (ih m (by omega) s).2
      exact ⟨bindOkProp _ _ _ rfl (bindErrProp _ _ (bindErrProp _ _ (bindErrProp _ _ (ihB _)))),
             bindOkProp _ _ _ rfl (bindErrProp _ _ (bindErrProp _ _ (bindErrProp _ _ (ihA _))))⟩

/-- C5: refuted on the code (code bug).  Interpreting a.mec (whose
content includes b.mec, which includes a.mec back) under its own include
chain never completes at any fuel: the interpretation loops forever
instead of rejecting the indirect cycle.  Direct self-inclusion is the
only rejected case, with the documented inline error containing
"recursively". -/
theorem c5_include_chain_not_passed (fuel : Nat) (st : IState) :
    interpret fuel envC5 (strOf "[include b.mec]") [] [strOf "a.mec"] st = .error .outOfFuel ∧
    outOf (interpret 60 { fs := [(strOf "a.mec", strOf "[include a.mec]")] }
        (strOf "[include a.mec]") [] [strOf "a.mec"] {}) =
      some (strOf "[ERROR: a.mec included recursively]") :=
  ⟨(c5_cycle_diverges fuel st).1, by decide⟩

theorem charToNatOfNat (n : Nat) (h : n < 55296) : (Char.ofNat n).toNat = n := by
  rw [Char.ofNat, dif_pos (Or.inl h)]
  simp [Char.ofNatAux, Char.toNat, UInt32.toNat, BitVec.toNat_ofNatLt]

theorem lowerAlnum1_goToLowerChar (c : Char)
    (hval : isValidOptionID [goToLowerChar c] = true) :
    lowerAlnum1 [goToLowerChar c] = true := by
  by_cases h : 65 ≤ c.toNat ∧ c.toNat ≤ 90
  · have hc : goToLowerChar c = Char.ofNat (c.toNat + 32) := by
      unfold goToLowerChar; rw [if_pos h]
    have ht : (Char.ofNat (c.toNat + 32)).toNat = c.toNat + 32 := charToNatOfNat _ (by omega)
    rw [hc]
    simp only [lowerAlnum1]
    simp only [ht]
    simp
    omega
  · have hc : goToLowerChar c = c := by unfold goToLowerChar; rw [if_neg h]
    rw [hc] at hval ⊢
    simp only [isValidOptionID] at hval
    simp only [lowerAlnum1]
    simp at hval ⊢
    omega

theorem lowerAlnum1_validated (s : Str)
    (hlen : (goToLower s).length = 1) (hval : isValidOptionID (goToLower s) = true) :
    lowerAlnum1 (goToLower s) = true := by
  obtain ⟨c, hc⟩ := List.length_eq_one.mp (by simpa [goToLower] using hlen)
  subst hc
  exact lowerAlnum1_goToLowerChar c hval

theorem mem_insertA {α : Type} (m : List (Str × α)) (k : Str) (v : α) :
    ∀ kv ∈ insertA m k v, kv = (k, v) ∨ kv ∈ m := by
  induction m with
  | nil => intro kv hkv; simp [insertA] at hkv; exact Or.inl hkv
  | cons hd tl ih =>
    intro kv hkv
    unfold insertA at hkv
    split at hkv
    · rw [List.mem_cons] at hkv
      rcases hkv with h | h
      · exact Or.inl h
      · exact Or.inr (List.mem_cons_of_mem _ h)
    · rw [List.mem_cons] at hkv
      rcases hkv with h | h
      · exact Or.inr (by simp [h])
      · rcases ih kv h with h2 | h2
        · exact Or.inl h2
        · exact Or.inr (List.mem_cons_of_mem _ h2)

theorem lookupA_key_mem {α : Type} (m : List (Str × α)) (k : Str)
    (h : (lookupA m k).isSome = true) : ∃ v, (k, v) ∈ m := by
  induction m with
  | nil => simp [lookupA] at h
  | cons hd tl ih =>
    unfold lookupA at h
    split at h
    · rename_i heq
      exact ⟨hd.2, by simp [← heq]⟩
    · obtain ⟨v, hv⟩ := ih h
      exact ⟨v, List.mem_cons_of_mem _ hv⟩

theorem menuInv_optionFlush {st : IState} (h : MenuInv st) : MenuInv (optionFlush st) := by
  unfold optionFlush
  split
  · rename_i hc
    refine ⟨?_, h.2.1, Or.inl rfl⟩
    intro kv hkv
    rcases mem_insertA _ _ _ kv hkv with he | hm
    · rcases h.2.2 with h0 | hv
      · exact absurd h0 hc.2
      · rw [he]; exact hv
    · exact h.1 kv hm
  · exact h

theorem menuInv_optionSaveOld {st : IState} (h : MenuInv st) : MenuInv (optionSaveOld st) := by
  unfold optionSaveOld
  split
  · rename_i hc
    refine ⟨?_, h.2.1, h.2.2⟩
    intro kv hkv
    rcases mem_insertA _ _ _ kv hkv with he | hm
    · rcases h.2.2 with h0 | hv
      · exact absurd h0 hc.2
      · rw [he]; exact hv
    · exact h.1 kv hm
  · exact h

theorem menuInv_handleMore {env : Env} {st : IState} (h : MenuInv st) :
    MenuInv (handleMorePrompt env st) := by
  simp only [handleMorePrompt]
  split
  · exact h
  · split
    · exact h
    · split
      · exact h
      · split
        · exact h
        · split
          · exact h
          · exact h

theorem menuInv_emitMore {env : Env} : ∀ (lines : List Str) (sk : Bool) (style : GStyle)
    (output : Str) (st : IState), MenuInv st →
    MenuInv (emitSt (emitLinesMore env lines sk style output st)) := by
  intro lines
  induction lines with
  | nil => intro sk style output st h; exact h
  | cons line rest ih =>
    intro sk style output st h
    simp only [emitLinesMore]
    repeat' split
    all_goals
      first
        | exact h
        | exact menuInv_handleMore h
        | exact ih _ _ _ _ (by first | exact h | exact menuInv_handleMore h)

theorem menuInv_emitPlain : ∀ (lines : List Str) (sk : Bool) (style : GStyle)
    (output : Str) (st : IState), MenuInv st →
    MenuInv (emitLinesPlain lines sk style output st).2 := by
  intro lines
  induction lines with
  | nil => intro sk style output st h; exact h
  | cons line rest ih =>
    intro sk style output st h
    simp only [emitLinesPlain]
    repeat' split
    all_goals exact ih _ _ _ _ h

theorem menuInv_emitMore_eq {env : Env} {lines : List Str} {sk : Bool} {style : GStyle}
    {output : Str} {st : IState} {r : EmitRes} (hInv : MenuInv st)
    (h : emitLinesMore env lines sk style output st = r) : MenuInv (emitSt r) :=
  h ▸ menuInv_emitMore lines sk style output st hInv

theorem menuInv_emitPlain_eq {lines : List Str} {sk : Bool} {style : GStyle}
    {output : Str} {st : IState} {r : Str × IState} (hInv : MenuInv st)
    (h : emitLinesPlain lines sk style output st = r) : MenuInv r.2 :=
  h ▸ menuInv_emitPlain lines sk style output st hInv

theorem menuInv_linkStep {dispfile : Env → Str → Vars → List Str → IState → M (Str × IState)}
    {env : Env} {original : Str} {vars : Vars} {includes : List Str} {position : Nat}
    {output : Str} {style : GStyle} {st : IState} {r : Str × GStyle × Str × Vars × List Str × IState}
    (hdisp : ∀ {env2 : Env} {f : Str} {vars2 : Vars} {includes2 : List Str} {st2 : IState}
      {pr2 : Str × IState}, MenuInv st2 → dispfile env2 f vars2 includes2 st2 = .ok pr2 →
      MenuInv pr2.2)
    (hInv : MenuInv st)
    (h : linkStep dispfile env original vars includes position output style st = .ok r) :
    MenuInv r.2.2.2.2.2 := by
  simp only [linkStep, bind, Except.bind, pure, Except.pure] at h
  repeat' split at h
  all_goals first
    | exact Except.noConfusion h
    | (injection h with h1; subst h1
       first
         | exact hInv
         | (refine hdisp ?_ (by assumption); exact hInv))

theorem engineZeroMenuInv : EngineMenuInv engineZero := by
  constructor <;> intros <;> first
    | exact absurd (by assumption) (by intro hx; exact nomatch hx)

set_option maxHeartbeats 4000000 in
theorem engineStepPParts {e : Engine} (ih : EngineMenuInv e) :
    ∀ {env parts i result sf slf style vars includes st out}, MenuInv st →
      (engineStep e).processParts env parts i result sf slf style vars includes st =
        .ok out → MenuInv out.2.2.2.2 := by
  intro env parts i result sf slf style vars includes st out hInv h
  simp only [engineStep, bind, Except.bind] at h
  by_cases hlen : i < parts.length
  case neg =>
    rw [if_neg hlen] at h
    injection h with h1
    subst h1
    exact hInv
  rw [if_pos hlen] at h
  by_cases hc0 : goToLower (parts.getD i []) = strOf "cls"
  case pos =>
    rw [if_pos hc0] at h
    repeat' split at h
    all_goals first
      | exact Except.noConfusion h
      | (injection h with h1; subst h1; exact hInv)
      | (refine ih.pswitch ?_ h; exact hInv)
      | (refine ih.pparts ?_ h
         first
           | exact hInv
           | exact menuInv_optionFlush hInv
           | exact ⟨fun kv hkv => absurd hkv (List.not_mem_nil _), hInv.2.1, hInv.2.2⟩
           | exact ⟨hInv.1, Or.inl rfl, hInv.2.2⟩
           | (obtain ⟨v, hv⟩ := lookupA_key_mem _ _ (by assumption)
              exact ⟨hInv.1, Or.inr (hInv.1 _ hv), hInv.2.2⟩)
           | (refine ⟨(menuInv_optionSaveOld hInv).1, (menuInv_optionSaveOld hInv).2.1,
                Or.inr ?_⟩
              exact lowerAlnum1_validated _ (And.left (by assumption))
                (And.right (by assumption)))
           | (have hx := by refine ih.exec ?_ (by assumption); exact hInv
              exact hx))
  rw [if_neg hc0] at h
  by_cases hc1 : goToLower (parts.getD i []) = strOf "cleos"
  case pos =>
    rw [if_pos hc1] at h
    repeat' split at h
    all_goals first
      | exact Except.noConfusion h
      | (injection h with h1; subst h1; exact hInv)
      | (refine ih.pswitch ?_ h; exact hInv)
      | (refine ih.pparts ?_ h
         first
           | exact hInv
           | exact menuInv_optionFlush hInv
           | exact ⟨fun kv hkv => absurd hkv (List.not_mem_nil _), hInv.2.1, hInv.2.2⟩
           | exact ⟨hInv.1, Or.inl rfl, hInv.2.2⟩
           | (obtain ⟨v, hv⟩ := lookupA_key_mem _ _ (by assumption)
              exact ⟨hInv.1, Or.inr (hInv.1 _ hv), hInv.2.2⟩)
           | (refine ⟨(menuInv_optionSaveOld hInv).1, (menuInv_optionSaveOld hInv).2.1,
                Or.inr ?_⟩
              exact lowerAlnum1_validated _ (And.left (by assumption))
                (And.right (by assumption)))
           | (have hx := by refine ih.exec ?_ (by assumption); exact hInv
              exact hx))
  rw [if_neg hc1] at h
  by_cases hc2 : goToLower (parts.getD i []) = strOf "cleol"
  case pos =>
    rw [if_pos hc2] at h
    repeat' split at h
    all_goals first
      | exact Except.noConfusion h
      | (injection h with h1; subst h1; exact hInv)
      | (refine ih.pswitch ?_ h; exact hInv)
      | (refine ih.pparts ?_ h
         first
           | exact hInv
           | exact menuInv_optionFlush hInv
           | exact ⟨fun kv hkv => absurd hkv (List.not_mem_nil _), hInv.2.1, hInv.2.2⟩
           | exact ⟨hInv.1, Or.inl rfl, hInv.2.2⟩
           | (obtain ⟨v, hv⟩ := lookupA_key_mem _ _ (by assumption)
              exact ⟨hInv.1, Or.inr (hInv.1 _ hv), hInv.2.2⟩)
           | (refine ⟨(menuInv_optionSaveOld hInv).1, (menuInv_optionSaveOld hInv).2.1,
                Or.inr ?_⟩
              exact lowerAlnum1_validated _ (And.left (by assumption))
                (And.right (by assumption)))
           | (have hx := by refine ih.exec ?_ (by assumption); exact hInv
              exact hx))
  rw [if_neg hc2] at h
  by_cases hc3 : goToLower (parts.getD i []) = strOf "blink"
  case pos =>
    rw [if_pos hc3] at h
    repeat' split at h
    all_goals first
      | exact Except.noConfusion h
      | (injection h with h1; subst h1; exact hInv)
      | (refine ih.pswitch ?_ h; exact hInv)
      | (refine ih.pparts ?_ h
         first
           | exact hInv
           | exact menuInv_optionFlush hInv
           | exact ⟨fun kv hkv => absurd hkv (List.not_mem_nil _), hInv.2.1, hInv.2.2⟩
           | exact ⟨hInv.1, Or.inl rfl, hInv.2.2⟩
           | (obtain ⟨v, hv⟩ := lookupA_key_mem _ _ (by assumption)
              exact ⟨hInv.1, Or.inr (hInv.1 _ hv), hInv.2.2⟩)
           | (refine ⟨(menuInv_optionSaveOld hInv).1, (menuInv_optionSaveOld hInv).2.1,
                Or.inr ?_⟩
              exact lowerAlnum1_validated _ (And.left (by assumption))
                (And.right (by assumption)))
           | (have hx := by refine ih.exec ?_ (by assumption); exact hInv
              exact hx))
  rw [if_neg hc3] at h
  by_cases hc4 : goToLower (parts.getD i []) = strOf "steady"
  case pos =>
    rw [if_pos hc4] at h
    repeat' split at h
    all_goals first
      | exact Except.noConfusion h
      | (injection h with h1; subst h1; exact hInv)
      | (refine ih.pswitch ?_ h; exact hInv)
      | (refine ih.pparts ?_ h
         first
           | exact hInv
           | exact menuInv_optionFlush hInv
           | exact ⟨fun kv hkv => absurd hkv (List.not_mem_nil _), hInv.2.1, hInv.2.2⟩
           | exact ⟨hInv.1, Or.inl rfl, hInv.2.2⟩
           | (obtain ⟨v, hv⟩ := lookupA_key_mem _ _ (by assumption)
              exact ⟨hInv.1, Or.inr (hInv.1 _ hv), hInv.2.2⟩)
           | (refine ⟨(menuInv_optionSaveOld hInv).1, (menuInv_optionSaveOld hInv).2.1,
                Or.inr ?_⟩
              exact lowerAlnum1_validated _ (And.left (by assumption))
                (And.right (by assumption)))
           | (have hx := by refine ih.exec ?_ (by assumption); exact hInv
              exact hx))
  rw [if_neg hc4] at h
  by_cases hc5 : goToLower (parts.getD i []) = strOf "bright" ∨ goToLower (parts.getD i []) = strOf "bold"
  case pos =>
    rw [if_pos hc5] at h
    repeat' split at h
    all_goals first
      | exact Except.noConfusion h
      | (injection h with h1; subst h1; exact hInv)
      | (refine ih.pswitch ?_ h; exact hInv)
      | (refine ih.pparts ?_ h
         first
           | exact hInv
           | exact menuInv_optionFlush hInv
           | exact ⟨fun kv hkv => absurd hkv (List.not_mem_nil _), hInv.2.1, hInv.2.2⟩
           | exact ⟨hInv.1, Or.inl rfl, hInv.2.2⟩
           | (obtain ⟨v, hv⟩ := lookupA_key_mem _ _ (by assumption)
              exact ⟨hInv.1, Or.inr (hInv.1 _ hv), hInv.2.2⟩)
           | (refine ⟨(menuInv_optionSaveOld hInv).1, (menuInv_optionSaveOld hInv).2.1,
                Or.inr ?_⟩
              exact lowerAlnum1_validated _ (And.left (by assumption))
                (And.right (by assumption)))
           | (have hx := by refine ih.exec ?_ (by assumption); exact hInv
              exact hx))
  rw [if_neg hc5] at h
  by_cases hc6 : goToLower (parts.getD i []) = strOf "underline"
  case pos =>
    rw [if_pos hc6] at h
    repeat' split at h
    all_goals first
      | exact Except.noConfusion h
      | (injection h with h1; subst h1; exact hInv)
      | (refine ih.pswitch ?_ h; exact hInv)
      | (refine ih.pparts ?_ h
         first
           | exact hInv
           | exact menuInv_optionFlush hInv
           | exact ⟨fun kv hkv => absurd hkv (List.not_mem_nil _), hInv.2.1, hInv.2.2⟩
           | exact ⟨hInv.1, Or.inl rfl, hInv.2.2⟩
           | (obtain ⟨v, hv⟩ := lookupA_key_mem _ _ (by assumption)
              exact ⟨hInv.1, Or.inr (hInv.1 _ hv), hInv.2.2⟩)
           | (refine ⟨(menuInv_optionSaveOld hInv).1, (menuInv_optionSaveOld hInv).2.1,
                Or.inr ?_⟩
              exact lowerAlnum1_validated _ (And.left (by assumption))
                (And.right (by assumption)))
           | (have hx := by refine ih.exec ?_ (by assumption); exact hInv
              exact hx))
  rw [if_neg hc6] at h
  by_cases hc7 : goToLower (parts.getD i []) = strOf "italic"
  case pos =>
    rw [if_pos hc7] at h
    repeat' split at h
    all_goals first
      | exact Except.noConfusion h
      | (injection h with h1; subst h1; exact hInv)
      | (refine ih.pswitch ?_ h; exact hInv)
      | (refine ih.pparts ?_ h
         first
           | exact hInv
           | exact menuInv_optionFlush hInv
           | exact ⟨fun kv hkv => absurd hkv (List.not_mem_nil _), hInv.2.1, hInv.2.2⟩
           | exact ⟨hInv.1, Or.inl rfl, hInv.2.2⟩
           | (obtain ⟨v, hv⟩ := lookupA_key_mem _ _ (by assumption)
              exact ⟨hInv.1, Or.inr (hInv.1 _ hv), hInv.2.2⟩)
           | (refine ⟨(menuInv_optionSaveOld hInv).1, (menuInv_optionSaveOld hInv).2.1,
                Or.inr ?_⟩
              exact lowerAlnum1_validated _ (And.left (by assumption))
                (And.right (by assumption)))
           | (have hx := by refine ih.exec ?_ (by assumption); exact hInv
              exact hx))
  rw [if_neg hc7] at h
  by_cases hc8 : goToLower (parts.getD i []) = strOf "dim"
  case pos =>
    rw [if_pos hc8] at h
    repeat' split at h
    all_goals first
      | exact Except.noConfusion h
      | (injection h with h1; subst h1; exact hInv)
      | (refine ih.pswitch ?_ h; exact hInv)
      | (refine ih.pparts ?_ h
         first
           | exact hInv
           | exact menuInv_optionFlush hInv
           | exact ⟨fun kv hkv => absurd hkv (List.not_mem_nil _), hInv.2.1, hInv.2.2⟩
           | exact ⟨hInv.1, Or.inl rfl, hInv.2.2⟩
           | (obtain ⟨v, hv⟩ := lookupA_key_mem _ _ (by assumption)
              exact ⟨hInv.1, Or.inr (hInv.1 _ hv), hInv.2.2⟩)
           | (refine ⟨(menuInv_optionSaveOld hInv).1, (menuInv_optionSaveOld hInv).2.1,
                Or.inr ?_⟩
              exact lowerAlnum1_validated _ (And.left (by assumption))
                (And.right (by assumption)))
           | (have hx := by refine ih.exec ?_ (by assumption); exact hInv
              exact hx))
  rw [if_neg hc8] at h
  by_cases hc9 : goToLower (parts.getD i []) = strOf "reverse"
  case pos =>
    rw [if_pos hc9] at h
    repeat' split at h
    all_goals first
      | exact Except.noConfusion h
      | (injection h with h1; subst h1; exact hInv)
      | (refine ih.pswitch ?_ h; exact hInv)
      | (refine ih.pparts ?_ h
         first
           | exact hInv
           | exact menuInv_optionFlush hInv
           | exact ⟨fun kv hkv => absurd hkv (List.not_mem_nil _), hInv.2.1, hInv.2.2⟩
           | exact ⟨hInv.1, Or.inl rfl, hInv.2.2⟩
           | (obtain ⟨v, hv⟩ := lookupA_key_mem _ _ (by assumption)
              exact ⟨hInv.1, Or.inr (hInv.1 _ hv), hInv.2.2⟩)
           | (refine ⟨(menuInv_optionSaveOld hInv).1, (menuInv_optionSaveOld hInv).2.1,
                Or.inr ?_⟩
              exact lowerAlnum1_validated _ (And.left (by assumption))
                (And.right (by assumption)))
           | (have hx := by refine ih.exec ?_ (by assumption); exact hInv
              exact hx))
  rw [if_neg hc9] at h
  by_cases hc10 : goToLower (parts.getD i []) = strOf "strike"
  case pos =>
    rw [if_pos hc10] at h
    repeat' split at h
    all_goals first
      | exact Except.noConfusion h
      | (injection h with h1; subst h1; exact hInv)
      | (refine ih.pswitch ?_ h; exact hInv)
      | (refine ih.pparts ?_ h
         first
           | exact hInv
           | exact menuInv_optionFlush hInv
           | exact ⟨fun kv hkv => absurd hkv (List.not_mem_nil _), hInv.2.1, hInv.2.2⟩
           | exact ⟨hInv.1, Or.inl rfl, hInv.2.2⟩
           | (obtain ⟨v, hv⟩ := lookupA_key_mem _ _ (by assumption)
              exact ⟨hInv.1, Or.inr (hInv.1 _ hv), hInv.2.2⟩)
           | (refine ⟨(menuInv_optionSaveOld hInv).1, (menuInv_optionSaveOld hInv).2.1,
                Or.inr ?_⟩
              exact lowerAlnum1_validated _ (And.left (by assumption))
                (And.right (by assumption)))
           | (have hx := by refine ih.exec ?_ (by assumption); exact hInv
              exact hx))
  rw [if_neg hc10] at h
  by_cases hc11 : goToLower (parts.getD i []) = strOf "bell"
  case pos =>
    rw [if_pos hc11] at h
    repeat' split at h
    all_goals first
      | exact Except.noConfusion h
      | (injection h with h1; subst h1; exact hInv)
      | (refine ih.pswitch ?_ h; exact hInv)
      | (refine ih.pparts ?_ h
         first
           | exact hInv
           | exact menuInv_optionFlush hInv
           | exact ⟨fun kv hkv => absurd hkv (List.not_mem_nil _), hInv.2.1, hInv.2.2⟩
           | exact ⟨hInv.1, Or.inl rfl, hInv.2.2⟩
           | (obtain ⟨v, hv⟩ := lookupA_key_mem _ _ (by assumption)
              exact ⟨hInv.1, Or.inr (hInv.1 _ hv), hInv.2.2⟩)
           | (refine ⟨(menuInv_optionSaveOld hInv).1, (menuInv_optionSaveOld hInv).2.1,
                Or.inr ?_⟩
              exact lowerAlnum1_validated _ (And.left (by assumption))
                (And.right (by assumption)))
           | (have hx := by refine ih.exec ?_ (by assumption); exact hInv
              exact hx))
  rw [if_neg hc11] at h
  by_cases hc12 : goToLower (parts.getD i []) = strOf "bs"
  case pos =>
    rw [if_pos hc12] at h
    repeat' split at h
    all_goals first
      | exact Except.noConfusion h
      | (injection h with h1; subst h1; exact hInv)
      | (refine ih.pswitch ?_ h; exact hInv)
      | (refine ih.pparts ?_ h
         first
           | exact hInv
           | exact menuInv_optionFlush hInv
           | exact ⟨fun kv hkv => absurd hkv (List.not_mem_nil _), hInv.2.1, hInv.2.2⟩
           | exact ⟨hInv.1, Or.inl rfl, hInv.2.2⟩
           | (obtain ⟨v, hv⟩ := lookupA_key_mem _ _ (by assumption)
              exact ⟨hInv.1, Or.inr (hInv.1 _ hv), hInv.2.2⟩)
           | (refine ⟨(menuInv_optionSaveOld hInv).1, (menuInv_optionSaveOld hInv).2.1,
                Or.inr ?_⟩
              exact lowerAlnum1_validated _ (And.left (by assumption))
                (And.right (by assumption)))
           | (have hx := by refine ih.exec ?_ (by assumption); exact hInv
              exact hx))
  rw [if_neg hc12] at h
  by_cases hc13 : goToLower (parts.getD i []) = strOf "tab"
  case pos =>
    rw [if_pos hc13] at h
    repeat' split at h
    all_goals first
      | exact Except.noConfusion h
      | (injection h with h1; subst h1; exact hInv)
      | (refine ih.pswitch ?_ h; exact hInv)
      | (refine ih.pparts ?_ h
         first
           | exact hInv
           | exact menuInv_optionFlush hInv
           | exact ⟨fun kv hkv => absurd hkv (List.not_mem_nil _), hInv.2.1, hInv.2.2⟩
           | exact ⟨hInv.1, Or.inl rfl, hInv.2.2⟩
           | (obtain ⟨v, hv⟩ := lookupA_key_mem _ _ (by assumption)
              exact ⟨hInv.1, Or.inr (hInv.1 _ hv), hInv.2.2⟩)
           | (refine ⟨(menuInv_optionSaveOld hInv).1, (menuInv_optionSaveOld hInv).2.1,
                Or.inr ?_⟩
              exact lowerAlnum1_validated _ (And.left (by assumption))
                (And.right (by assumption)))
           | (have hx := by refine ih.exec ?_ (by assumption); exact hInv
              exact hx))
  rw [if_neg hc13] at h
  by_cases hc14 : goToLower (parts.getD i []) = strOf "pause"
  case pos =>
    rw [if_pos hc14] at h
    repeat' split at h
    all_goals first
      | exact Except.noConfusion h
      | (injection h with h1; subst h1; exact hInv)
      | (refine ih.pswitch ?_ h; exact hInv)
      | (refine ih.pparts ?_ h
         first
           | exact hInv
           | exact menuInv_optionFlush hInv
           | exact ⟨fun kv hkv => absurd hkv (List.not_mem_nil _), hInv.2.1, hInv.2.2⟩
           | exact ⟨hInv.1, Or.inl rfl, hInv.2.2⟩
           | (obtain ⟨v, hv⟩ := lookupA_key_mem _ _ (by assumption)
              exact ⟨hInv.1, Or.inr (hInv.1 _ hv), hInv.2.2⟩)
           | (refine ⟨(menuInv_optionSaveOld hInv).1, (menuInv_optionSaveOld hInv).2.1,
                Or.inr ?_⟩
              exact lowerAlnum1_validated _ (And.left (by assumption))
                (And.right (by assumption)))
           | (have hx := by refine ih.exec ?_ (by assumption); exact hInv
              exact hx))
  rw [if_neg hc14] at h
  by_cases hc15 : goToLower (parts.getD i []) = strOf "comment"
  case pos =>
    rw [if_pos hc15] at h
    repeat' split at h
    all_goals first
      | exact Except.noConfusion h
      | (injection h with h1; subst h1; exact hInv)
      | (refine ih.pswitch ?_ h; exact hInv)
      | (refine ih.pparts ?_ h
         first
           | exact hInv
           | exact menuInv_optionFlush hInv
           | exact ⟨fun kv hkv => absurd hkv (List.not_mem_nil _), hInv.2.1, hInv.2.2⟩
           | exact ⟨hInv.1, Or.inl rfl, hInv.2.2⟩
           | (obtain ⟨v, hv⟩ := lookupA_key_mem _ _ (by assumption)
              exact ⟨hInv.1, Or.inr (hInv.1 _ hv), hInv.2.2⟩)
           | (refine ⟨(menuInv_optionSaveOld hInv).1, (menuInv_optionSaveOld hInv).2.1,
                Or.inr ?_⟩
              exact lowerAlnum1_validated _ (And.left (by assumption))
                (And.right (by assumption)))
           | (have hx := by refine ih.exec ?_ (by assumption); exact hInv
              exact hx))
  rw [if_neg hc15] at h
  by_cases hc16 : goToLower (parts.getD i []) = strOf "repeat"
  case pos =>
    rw [if_pos hc16] at h
    repeat' split at h
    all_goals first
      | exact Except.noConfusion h
      | (injection h with h1; subst h1; exact hInv)
      | (refine ih.pswitch ?_ h; exact hInv)
      | (refine ih.pparts ?_ h
         first
           | exact hInv
           | exact menuInv_optionFlush hInv
           | exact ⟨fun kv hkv => absurd hkv (List.not_mem_nil _), hInv.2.1, hInv.2.2⟩
           | exact ⟨hInv.1, Or.inl rfl, hInv.2.2⟩
           | (obtain ⟨v, hv⟩ := lookupA_key_mem _ _ (by assumption)
              exact ⟨hInv.1, Or.inr (hInv.1 _ hv), hInv.2.2⟩)
           | (refine ⟨(menuInv_optionSaveOld hInv).1, (menuInv_optionSaveOld hInv).2.1,
                Or.inr ?_⟩
              exact lowerAlnum1_validated _ (And.left (by assumption))
                (And.right (by assumption)))
           | (have hx := by refine ih.exec ?_ (by assumption); exact hInv
              exact hx))
  rw [if_neg hc16] at h
  by_cases hc17 : goToLower (parts.getD i []) = strOf "reset"
  case pos =>
    rw [if_pos hc17] at h
    repeat' split at h
    all_goals first
      | exact Except.noConfusion h
      | (injection h with h1; subst h1; exact hInv)
      | (refine ih.pswitch ?_ h; exact hInv)
      | (refine ih.pparts ?_ h
         first
           | exact hInv
           | exact menuInv_optionFlush hInv
           | exact ⟨fun kv hkv => absurd hkv (List.not_mem_nil _), hInv.2.1, hInv.2.2⟩
           | exact ⟨hInv.1, Or.inl rfl, hInv.2.2⟩
           | (obtain ⟨v, hv⟩ := lookupA_key_mem _ _ (by assumption)
              exact ⟨hInv.1, Or.inr (hInv.1 _ hv), hInv.2.2⟩)
           | (refine ⟨(menuInv_optionSaveOld hInv).1, (menuInv_optionSaveOld hInv).2.1,
                Or.inr ?_⟩
              exact lowerAlnum1_validated _ (And.left (by assumption))
                (And.right (by assumption)))
           | (have hx := by refine ih.exec ?_ (by assumption); exact hInv
              exact hx))
  rw [if_neg hc17] at h
  by_cases hc18 : goToLower (parts.getD i []) = strOf "save"
  case pos =>
    rw [if_pos hc18] at h
    repeat' split at h
    all_goals first
      | exact Except.noConfusion h
      | (injection h with h1; subst h1; exact hInv)
      | (refine ih.pswitch ?_ h; exact hInv)
      | (refine ih.pparts ?_ h
         first
           | exact hInv
           | exact menuInv_optionFlush hInv
           | exact ⟨fun kv hkv => absurd hkv (List.not_mem_nil _), hInv.2.1, hInv.2.2⟩
           | exact ⟨hInv.1, Or.inl rfl, hInv.2.2⟩
           | (obtain ⟨v, hv⟩ := lookupA_key_mem _ _ (by assumption)
              exact ⟨hInv.1, Or.inr (hInv.1 _ hv), hInv.2.2⟩)
           | (refine ⟨(menuInv_optionSaveOld hInv).1, (menuInv_optionSaveOld hInv).2.1,
                Or.inr ?_⟩
              exact lowerAlnum1_validated _ (And.left (by assumption))
                (And.right (by assumption)))
           | (have hx := by refine ih.exec ?_ (by assumption); exact hInv
              exact hx))
  rw [if_neg hc18] at h
  by_cases hc19 : goToLower (parts.getD i []) = strOf "load"
  case pos =>
    rw [if_pos hc19] at h
    repeat' split at h
    all_goals first
      | exact Except.noConfusion h
      | (injection h with h1; subst h1; exact hInv)
      | (refine ih.pswitch ?_ h; exact hInv)
      | (refine ih.pparts ?_ h
         first
           | exact hInv
           | exact menuInv_optionFlush hInv
           | exact ⟨fun kv hkv => absurd hkv (List.not_mem_nil _), hInv.2.1, hInv.2.2⟩
           | exact ⟨hInv.1, Or.inl rfl, hInv.2.2⟩
           | (obtain ⟨v, hv⟩ := lookupA_key_mem _ _ (by assumption)
              exact ⟨hInv.1, Or.inr (hInv.1 _ hv), hInv.2.2⟩)
           | (refine ⟨(menuInv_optionSaveOld hInv).1, (menuInv_optionSaveOld hInv).2.1,
                Or.inr ?_⟩
              exact lowerAlnum1_validated _ (And.left (by assumption))
                (And.right (by assumption)))
           | (have hx := by refine ih.exec ?_ (by assumption); exact hInv
              exact hx))
  rw [if_neg hc19] at h
  by_cases hc20 : goToLower (parts.getD i []) = strOf "locate"
  case pos =>
    rw [if_pos hc20] at h
    repeat' split at h
    all_goals first
      | exact Except.noConfusion h
      | (injection h with h1; subst h1; exact hInv)
      | (refine ih.pswitch ?_ h; exact hInv)
      | (refine ih.pparts ?_ h
         first
           | exact hInv
           | exact menuInv_optionFlush hInv
           | exact ⟨fun kv hkv => absurd hkv (List.not_mem_nil _), hInv.2.1, hInv.2.2⟩
           | exact ⟨hInv.1, Or.inl rfl, hInv.2.2⟩
           | (obtain ⟨v, hv⟩ := lookupA_key_mem _ _ (by assumption)
              exact ⟨hInv.1, Or.inr (hInv.1 _ hv), hInv.2.2⟩)
           | (refine ⟨(menuInv_optionSaveOld hInv).1, (menuInv_optionSaveOld hInv).2.1,
                Or.inr ?_⟩
              exact lowerAlnum1_validated _ (And.left (by assumption))
                (And.right (by assumption)))
           | (have hx := by refine ih.exec ?_ (by assumption); exact hInv
              exact hx))
  rw [if_neg hc20] at h
  by_cases hc21 : goToLower (parts.getD i []) = strOf "cr"
  case pos =>
    rw [if_pos hc21] at h
    repeat' split at h
    all_goals first
      | exact Except.noConfusion h
      | (injection h with h1; subst h1; exact hInv)
      | (refine ih.pswitch ?_ h; exact hInv)
      | (refine ih.pparts ?_ h
         first
           | exact hInv
           | exact menuInv_optionFlush hInv
           | exact ⟨fun kv hkv => absurd hkv (List.not_mem_nil _), hInv.2.1, hInv.2.2⟩
           | exact ⟨hInv.1, Or.inl rfl, hInv.2.2⟩
           | (obtain ⟨v, hv⟩ := lookupA_key_mem _ _ (by assumption)
              exact ⟨hInv.1, Or.inr (hInv.1 _ hv), hInv.2.2⟩)
           | (refine ⟨(menuInv_optionSaveOld hInv).1, (menuInv_optionSaveOld hInv).2.1,
                Or.inr ?_⟩
              exact lowerAlnum1_validated _ (And.left (by assumption))
                (And.right (by assumption)))
           | (have hx := by refine ih.exec ?_ (by assumption); exact hInv
              exact hx))
  rw [if_neg hc21] at h
  by_cases hc22 : goToLower (parts.getD i []) = strOf "lf"
  case pos =>
    rw [if_pos hc22] at h
    repeat' split at h
    all_goals first
      | exact Except.noConfusion h
      | (injection h with h1; subst h1; exact hInv)
      | (refine ih.pswitch ?_ h; exact hInv)
      | (refine ih.pparts ?_ h
         first
           | exact hInv
           | exact menuInv_optionFlush hInv
           | exact ⟨fun kv hkv => absurd hkv (List.not_mem_nil _), hInv.2.1, hInv.2.2⟩
           | exact ⟨hInv.1, Or.inl rfl, hInv.2.2⟩
           | (obtain ⟨v, hv⟩ := lookupA_key_mem _ _ (by assumption)
              exact ⟨hInv.1, Or.inr (hInv.1 _ hv), hInv.2.2⟩)
           | (refine ⟨(menuInv_optionSaveOld hInv).1, (menuInv_optionSaveOld hInv).2.1,
                Or.inr ?_⟩
              exact lowerAlnum1_validated _ (And.left (by assumption))
                (And.right (by assumption)))
           | (have hx := by refine ih.exec ?_ (by assumption); exact hInv
              exact hx))
  rw [if_neg hc22] at h
  by_cases hc23 : goToLower (parts.getD i []) = strOf "up"
  case pos =>
    rw [if_pos hc23] at h
    repeat' split at h
    all_goals first
      | exact Except.noConfusion h
      | (injection h with h1; subst h1; exact hInv)
      | (refine ih.pswitch ?_ h; exact hInv)
      | (refine ih.pparts ?_ h
         first
           | exact hInv
           | exact menuInv_optionFlush hInv
           | exact ⟨fun kv hkv => absurd hkv (List.not_mem_nil _), hInv.2.1, hInv.2.2⟩
           | exact ⟨hInv.1, Or.inl rfl, hInv.2.2⟩
           | (obtain ⟨v, hv⟩ := lookupA_key_mem _ _ (by assumption)
              exact ⟨hInv.1, Or.inr (hInv.1 _ hv), hInv.2.2⟩)
           | (refine ⟨(menuInv_optionSaveOld hInv).1, (menuInv_optionSaveOld hInv).2.1,
                Or.inr ?_⟩
              exact lowerAlnum1_validated _ (And.left (by assumption))
                (And.right (by assumption)))
           | (have hx := by refine ih.exec ?_ (by assumption); exact hInv
              exact hx))
  rw [if_neg hc23] at h
  by_cases hc24 : goToLower (parts.getD i []) = strOf "down"
  case pos =>
    rw [if_pos hc24] at h
    repeat' split at h
    all_goals first
      | exact Except.noConfusion h
      | (injection h with h1; subst h1; exact hInv)
      | (refine ih.pswitch ?_ h; exact hInv)
      | (refine ih.pparts ?_ h
         first
           | exact hInv
           | exact menuInv_optionFlush hInv
           | exact ⟨fun kv hkv => absurd hkv (List.not_mem_nil _), hInv.2.1, hInv.2.2⟩
           | exact ⟨hInv.1, Or.inl rfl, hInv.2.2⟩
           | (obtain ⟨v, hv⟩ := lookupA_key_mem _ _ (by assumption)
              exact ⟨hInv.1, Or.inr (hInv.1 _ hv), hInv.2.2⟩)
           | (refine ⟨(menuInv_optionSaveOld hInv).1, (menuInv_optionSaveOld hInv).2.1,
                Or.inr ?_⟩
              exact lowerAlnum1_validated _ (And.left (by assumption))
                (And.right (by assumption)))
           | (have hx := by refine ih.exec ?_ (by assumption); exact hInv
              exact hx))
  rw [if_neg hc24] at h
  by_cases hc25 : goToLower (parts.getD i []) = strOf "right"
  case pos =>
    rw [if_pos hc25] at h
    repeat' split at h
    all_goals first
      | exact Except.noConfusion h
      | (injection h with h1; subst h1; exact hInv)
      | (refine ih.pswitch ?_ h; exact hInv)
      | (refine ih.pparts ?_ h
         first
           | exact hInv
           | exact menuInv_optionFlush hInv
           | exact ⟨fun kv hkv => absurd hkv (List.not_mem_nil _), hInv.2.1, hInv.2.2⟩
           | exact ⟨hInv.1, Or.inl rfl, hInv.2.2⟩
           | (obtain ⟨v, hv⟩ := lookupA_key_mem _ _ (by assumption)
              exact ⟨hInv.1, Or.inr (hInv.1 _ hv), hInv.2.2⟩)
           | (refine ⟨(menuInv_optionSaveOld hInv).1, (menuInv_optionSaveOld hInv).2.1,
                Or.inr ?_⟩
              exact lowerAlnum1_validated _ (And.left (by assumption))
                (And.right (by assumption)))
           | (have hx := by refine ih.exec ?_ (by assumption); exact hInv
              exact hx))
  rw [if_neg hc25] at h
  by_cases hc26 : goToLower (parts.getD i []) = strOf "left"
  case pos =>
    rw [if_pos hc26] at h
    repeat' split at h
    all_goals first
      | exact Except.noConfusion h
      | (injection h with h1; subst h1; exact hInv)
      | (refine ih.pswitch ?_ h; exact hInv)
      | (refine ih.pparts ?_ h
         first
           | exact hInv
           | exact menuInv_optionFlush hInv
           | exact ⟨fun kv hkv => absurd hkv (List.not_mem_nil _), hInv.2.1, hInv.2.2⟩
           | exact ⟨hInv.1, Or.inl rfl, hInv.2.2⟩
           | (obtain ⟨v, hv⟩ := lookupA_key_mem _ _ (by assumption)
              exact ⟨hInv.1, Or.inr (hInv.1 _ hv), hInv.2.2⟩)
           | (refine ⟨(menuInv_optionSaveOld hInv).1, (menuInv_optionSaveOld hInv).2.1,
                Or.inr ?_⟩
              exact lowerAlnum1_validated _ (And.left (by assumption))
                (And.right (by assumption)))
           | (have hx := by refine ih.exec ?_ (by assumption); exact hInv
              exact hx))
  rw [if_neg hc26] at h
  by_cases hc27 : goToLower (parts.getD i []) = strOf "savecursor"
  case pos =>
    rw [if_pos hc27] at h
    repeat' split at h
    all_goals first
      | exact Except.noConfusion h
      | (injection h with h1; subst h1; exact hInv)
      | (refine ih.pswitch ?_ h; exact hInv)
      | (refine ih.pparts ?_ h
         first
           | exact hInv
           | exact menuInv_optionFlush hInv
           | exact ⟨fun kv hkv => absurd hkv (List.not_mem_nil _), hInv.2.1, hInv.2.2⟩
           | exact ⟨hInv.1, Or.inl rfl, hInv.2.2⟩
           | (obtain ⟨v, hv⟩ := lookupA_key_mem _ _ (by assumption)
              exact ⟨hInv.1, Or.inr (hInv.1 _ hv), hInv.2.2⟩)
           | (refine ⟨(menuInv_optionSaveOld hInv).1, (menuInv_optionSaveOld hInv).2.1,
                Or.inr ?_⟩
              exact lowerAlnum1_validated _ (And.left (by assumption))
                (And.right (by assumption)))
           | (have hx := by refine ih.exec ?_ (by assumption); exact hInv
              exact hx))
  rw [if_neg hc27] at h
  by_cases hc28 : goToLower (parts.getD i []) = strOf "restorecursor"
  case pos =>
    rw [if_pos hc28] at h
    repeat' split at h
    all_goals first
      | exact Except.noConfusion h
      | (injection h with h1; subst h1; exact hInv)
      | (refine ih.pswitch ?_ h; exact hInv)
      | (refine ih.pparts ?_ h
         first
           | exact hInv
           | exact menuInv_optionFlush hInv
           | exact ⟨fun kv hkv => absurd hkv (List.not_mem_nil _), hInv.2.1, hInv.2.2⟩
           | exact ⟨hInv.1, Or.inl rfl, hInv.2.2⟩
           | (obtain ⟨v, hv⟩ := lookupA_key_mem _ _ (by assumption)
              exact ⟨hInv.1, Or.inr (hInv.1 _ hv), hInv.2.2⟩)
           | (refine ⟨(menuInv_optionSaveOld hInv).1, (menuInv_optionSaveOld hInv).2.1,
                Or.inr ?_⟩
              exact lowerAlnum1_validated _ (And.left (by assumption))
                (And.right (by assumption)))
           | (have hx := by refine ih.exec ?_ (by assumption); exact hInv
              exact hx))
  rw [if_neg hc28] at h
  by_cases hc29 : goToLower (parts.getD i []) = strOf "line"
  case pos =>
    rw [if_pos hc29] at h
    repeat' split at h
    all_goals first
      | exact Except.noConfusion h
      | (injection h with h1; subst h1; exact hInv)
      | (refine ih.pswitch ?_ h; exact hInv)
      | (refine ih.pparts ?_ h
         first
           | exact hInv
           | exact menuInv_optionFlush hInv
           | exact ⟨fun kv hkv => absurd hkv (List.not_mem_nil _), hInv.2.1, hInv.2.2⟩
           | exact ⟨hInv.1, Or.inl rfl, hInv.2.2⟩
           | (obtain ⟨v, hv⟩ := lookupA_key_mem _ _ (by assumption)
              exact ⟨hInv.1, Or.inr (hInv.1 _ hv), hInv.2.2⟩)
           | (refine ⟨(menuInv_optionSaveOld hInv).1, (menuInv_optionSaveOld hInv).2.1,
                Or.inr ?_⟩
              exact lowerAlnum1_validated _ (And.left (by assumption))
                (And.right (by assumption)))
           | (have hx := by refine ih.exec ?_ (by assumption); exact hInv
              exact hx))
  rw [if_neg hc29] at h
  by_cases hc30 : goToLower (parts.getD i []) = strOf "include"
  case pos =>
    rw [if_pos hc30] at h
    repeat' split at h
    all_goals first
      | exact Except.noConfusion h
      | (injection h with h1; subst h1; exact hInv)
      | (refine ih.pswitch ?_ h; exact hInv)
      | (refine ih.pparts ?_ h
         first
           | exact hInv
           | exact menuInv_optionFlush hInv
           | exact ⟨fun kv hkv => absurd hkv (List.not_mem_nil _), hInv.2.1, hInv.2.2⟩
           | exact ⟨hInv.1, Or.inl rfl, hInv.2.2⟩
           | (obtain ⟨v, hv⟩ := lookupA_key_mem _ _ (by assumption)
              exact ⟨hInv.1, Or.inr (hInv.1 _ hv), hInv.2.2⟩)
           | (refine ⟨(menuInv_optionSaveOld hInv).1, (menuInv_optionSaveOld hInv).2.1,
                Or.inr ?_⟩
              exact lowerAlnum1_validated _ (And.left (by assumption))
                (And.right (by assumption)))
           | (have hx := by refine ih.exec ?_ (by assumption); exact hInv
              exact hx))
  rw [if_neg hc30] at h
  by_cases hc31 : goToLower (parts.getD i []) = strOf "display"
  case pos =>
    rw [if_pos hc31] at h
    repeat' split at h
    all_goals first
      | exact Except.noConfusion h
      | (injection h with h1; subst h1; exact hInv)
      | (refine ih.pswitch ?_ h; exact hInv)
      | (refine ih.pparts ?_ h
         first
           | exact hInv
           | exact menuInv_optionFlush hInv
           | exact ⟨fun kv hkv => absurd hkv (List.not_mem_nil _), hInv.2.1, hInv.2.2⟩
           | exact ⟨hInv.1, Or.inl rfl, hInv.2.2⟩
           | (obtain ⟨v, hv⟩ := lookupA_key_mem _ _ (by assumption)
              exact ⟨hInv.1, Or.inr (hInv.1 _ hv), hInv.2.2⟩)
           | (refine ⟨(menuInv_optionSaveOld hInv).1, (menuInv_optionSaveOld hInv).2.1,
                Or.inr ?_⟩
              exact lowerAlnum1_validated _ (And.left (by assumption))
                (And.right (by assumption)))
           | (have hx := by refine ih.exec ?_ (by assumption); exact hInv
              exact hx))
  rw [if_neg hc31] at h
  by_cases hc32 : goToLower (parts.getD i []) = strOf "link"
  case pos =>
    rw [if_pos hc32] at h
    repeat' split at h
    all_goals first
      | exact Except.noConfusion h
      | (injection h with h1; subst h1; exact hInv)
      | (refine ih.pswitch ?_ h; exact hInv)
      | (refine ih.pparts ?_ h
         first
           | exact hInv
           | exact menuInv_optionFlush hInv
           | exact ⟨fun kv hkv => absurd hkv (List.not_mem_nil _), hInv.2.1, hInv.2.2⟩
           | exact ⟨hInv.1, Or.inl rfl, hInv.2.2⟩
           | (obtain ⟨v, hv⟩ := lookupA_key_mem _ _ (by assumption)
              exact ⟨hInv.1, Or.inr (hInv.1 _ hv), hInv.2.2⟩)
           | (refine ⟨(menuInv_optionSaveOld hInv).1, (menuInv_optionSaveOld hInv).2.1,
                Or.inr ?_⟩
              exact lowerAlnum1_validated _ (And.left (by assumption))
                (And.right (by assumption)))
           | (have hx := by refine ih.exec ?_ (by assumption); exact hInv
              exact hx))
  rw [if_neg hc32] at h
  by_cases hc33 : goToLower (parts.getD i []) = strOf "bg"
  case pos =>
    rw [if_pos hc33] at h
    repeat' split at h
    all_goals first
      | exact Except.noConfusion h
      | (injection h with h1; subst h1; exact hInv)
      | (refine ih.pswitch ?_ h; exact hInv)
      | (refine ih.pparts ?_ h
         first
           | exact hInv
           | exact menuInv_optionFlush hInv
           | exact ⟨fun kv hkv => absurd hkv (List.not_mem_nil _), hInv.2.1, hInv.2.2⟩
           | exact ⟨hInv.1, Or.inl rfl, hInv.2.2⟩
           | (obtain ⟨v, hv⟩ := lookupA_key_mem _ _ (by assumption)
              exact ⟨hInv.1, Or.inr (hInv.1 _ hv), hInv.2.2⟩)
           | (refine ⟨(menuInv_optionSaveOld hInv).1, (menuInv_optionSaveOld hInv).2.1,
                Or.inr ?_⟩
              exact lowerAlnum1_validated _ (And.left (by assumption))
                (And.right (by assumption)))
           | (have hx := by refine ih.exec ?_ (by assumption); exact hInv
              exact hx))
  rw [if_neg hc33] at h
  by_cases hc34 : goToLower (parts.getD i []) = strOf "fg"
  case pos =>
    rw [if_pos hc34] at h
    repeat' split at h
    all_goals first
      | exact Except.noConfusion h
      | (injection h with h1; subst h1; exact hInv)
      | (refine ih.pswitch ?_ h; exact hInv)
      | (refine ih.pparts ?_ h
         first
           | exact hInv
           | exact menuInv_optionFlush hInv
           | exact ⟨fun kv hkv => absurd hkv (List.not_mem_nil _), hInv.2.1, hInv.2.2⟩
           | exact ⟨hInv.1, Or.inl rfl, hInv.2.2⟩
           | (obtain ⟨v, hv⟩ := lookupA_key_mem _ _ (by assumption)
              exact ⟨hInv.1, Or.inr (hInv.1 _ hv), hInv.2.2⟩)
           | (refine ⟨(menuInv_optionSaveOld hInv).1, (menuInv_optionSaveOld hInv).2.1,
                Or.inr ?_⟩
              exact lowerAlnum1_validated _ (And.left (by assumption))
                (And.right (by assumption)))
           | (have hx := by refine ih.exec ?_ (by assumption); exact hInv
              exact hx))
  rw [if_neg hc34] at h
  by_cases hc35 : goToLower (parts.getD i []) = strOf "on"
  case pos =>
    rw [if_pos hc35] at h
    repeat' split at h
    all_goals first
      | exact Except.noConfusion h
      | (injection h with h1; subst h1; exact hInv)
      | (refine ih.pswitch ?_ h; exact hInv)
      | (refine ih.pparts ?_ h
         first
           | exact hInv
           | exact menuInv_optionFlush hInv
           | exact ⟨fun kv hkv => absurd hkv (List.not_mem_nil _), hInv.2.1, hInv.2.2⟩
           | exact ⟨hInv.1, Or.inl rfl, hInv.2.2⟩
           | (obtain ⟨v, hv⟩ := lookupA_key_mem _ _ (by assumption)
              exact ⟨hInv.1, Or.inr (hInv.1 _ hv), hInv.2.2⟩)
           | (refine ⟨(menuInv_optionSaveOld hInv).1, (menuInv_optionSaveOld hInv).2.1,
                Or.inr ?_⟩
              exact lowerAlnum1_validated _ (And.left (by assumption))
                (And.right (by assumption)))
           | (have hx := by refine ih.exec ?_ (by assumption); exact hInv
              exact hx))
  rw [if_neg hc35] at h
  by_cases hc36 : goToLower (parts.getD i []) = strOf "onexit"
  case pos =>
    rw [if_pos hc36] at h
    repeat' split at h
    all_goals first
      | exact Except.noConfusion h
      | (injection h with h1; subst h1; exact hInv)
      | (refine ih.pswitch ?_ h; exact hInv)
      | (refine ih.pparts ?_ h
         first
           | exact hInv
           | exact menuInv_optionFlush hInv
           | exact ⟨fun kv hkv => absurd hkv (List.not_mem_nil _), hInv.2.1, hInv.2.2⟩
           | exact ⟨hInv.1, Or.inl rfl, hInv.2.2⟩
           | (obtain ⟨v, hv⟩ := lookupA_key_mem _ _ (by assumption)
              exact ⟨hInv.1, Or.inr (hInv.1 _ hv), hInv.2.2⟩)
           | (refine ⟨(menuInv_optionSaveOld hInv).1, (menuInv_optionSaveOld hInv).2.1,
                Or.inr ?_⟩
              exact lowerAlnum1_validated _ (And.left (by assumption))
                (And.right (by assumption)))
           | (have hx := by refine ih.exec ?_ (by assumption); exact hInv
              exact hx))
  rw [if_neg hc36] at h
  by_cases hc37 : goToLower (parts.getD i []) = strOf "ansi"
  case pos =>
    rw [if_pos hc37] at h
    repeat' split at h
    all_goals first
      | exact Except.noConfusion h
      | (injection h with h1; subst h1; exact hInv)
      | (refine ih.pswitch ?_ h; exact hInv)
      | (refine ih.pparts ?_ h
         first
           | exact hInv
           | exact menuInv_optionFlush hInv
           | exact ⟨fun kv hkv => absurd hkv (List.not_mem_nil _), hInv.2.1, hInv.2.2⟩
           | exact ⟨hInv.1, Or.inl rfl, hInv.2.2⟩
           | (obtain ⟨v, hv⟩ := lookupA_key_mem _ _ (by assumption)
              exact ⟨hInv.1, Or.inr (hInv.1 _ hv), hInv.2.2⟩)
           | (refine ⟨(menuInv_optionSaveOld hInv).1, (menuInv_optionSaveOld hInv).2.1,
                Or.inr ?_⟩
              exact lowerAlnum1_validated _ (And.left (by assumption))
                (And.right (by assumption)))
           | (have hx := by refine ih.exec ?_ (by assumption); exact hInv
              exact hx))
  rw [if_neg hc37] at h
  by_cases hc38 : goToLower (parts.getD i []) = strOf "ansiconvert"
  case pos =>
    rw [if_pos hc38] at h
    repeat' split at h
    all_goals first
      | exact Except.noConfusion h
      | (injection h with h1; subst h1; exact hInv)
      | (refine ih.pswitch ?_ h; exact hInv)
      | (refine ih.pparts ?_ h
         first
           | exact hInv
           | exact menuInv_optionFlush hInv
           | exact ⟨fun kv hkv => absurd hkv (List.not_mem_nil _), hInv.2.1, hInv.2.2⟩
           | exact ⟨hInv.1, Or.inl rfl, hInv.2.2⟩
           | (obtain ⟨v, hv⟩ := lookupA_key_mem _ _ (by assumption)
              exact ⟨hInv.1, Or.inr (hInv.1 _ hv), hInv.2.2⟩)
           | (refine ⟨(menuInv_optionSaveOld hInv).1, (menuInv_optionSaveOld hInv).2.1,
                Or.inr ?_⟩
              exact lowerAlnum1_validated _ (And.left (by assumption))
                (And.right (by assumption)))
           | (have hx := by refine ih.exec ?_ (by assumption); exact hInv
              exact hx))
  rw [if_neg hc38] at h
  by_cases hc39 : goToLower (parts.getD i []) = strOf "menu"
  case pos =>
    rw [if_pos hc39] at h
    repeat' split at h
    all_goals first
      | exact Except.noConfusion h
      | (injection h with h1; subst h1; exact hInv)
      | (refine ih.pswitch ?_ h; exact hInv)
      | (refine ih.pparts ?_ h
         first
           | exact hInv
           | exact menuInv_optionFlush hInv
           | exact ⟨fun kv hkv => absurd hkv (List.not_mem_nil _), hInv.2.1, hInv.2.2⟩
           | exact ⟨hInv.1, Or.inl rfl, hInv.2.2⟩
           | (obtain ⟨v, hv⟩ := lookupA_key_mem _ _ (by assumption)
              exact ⟨hInv.1, Or.inr (hInv.1 _ hv), hInv.2.2⟩)
           | (refine ⟨(menuInv_optionSaveOld hInv).1, (menuInv_optionSaveOld hInv).2.1,
                Or.inr ?_⟩
              exact lowerAlnum1_validated _ (And.left (by assumption))
                (And.right (by assumption)))
           | (have hx := by refine ih.exec ?_ (by assumption); exact hInv
              exact hx))
  rw [if_neg hc39] at h
  by_cases hc40 : goToLower (parts.getD i []) = strOf "option"
  case pos =>
    rw [if_pos hc40] at h
    repeat' split at h
    all_goals first
      | exact Except.noConfusion h
      | (injection h with h1; subst h1; exact hInv)
      | (refine ih.pswitch ?_ h; exact hInv)
      | (refine ih.pparts ?_ h
         first
           | exact hInv
           | exact menuInv_optionFlush hInv
           | exact ⟨fun kv hkv => absurd hkv (List.not_mem_nil _), hInv.2.1, hInv.2.2⟩
           | exact ⟨hInv.1, Or.inl rfl, hInv.2.2⟩
           | (obtain ⟨v, hv⟩ := lookupA_key_mem _ _ (by assumption)
              exact ⟨hInv.1, Or.inr (hInv.1 _ hv), hInv.2.2⟩)
           | (refine ⟨(menuInv_optionSaveOld hInv).1, (menuInv_optionSaveOld hInv).2.1,
                Or.inr ?_⟩
              exact lowerAlnum1_validated _ (And.left (by assumption))
                (And.right (by assumption)))
           | (have hx := by refine ih.exec ?_ (by assumption); exact hInv
              exact hx))
  rw [if_neg hc40] at h
  by_cases hc41 : goToLower (parts.getD i []) = strOf "menuwait"
  case pos =>
    rw [if_pos hc41] at h
    repeat' split at h
    all_goals first
      | exact Except.noConfusion h
      | (injection h with h1; subst h1; exact hInv)
      | (refine ih.pswitch ?_ h; exact hInv)
      | (refine ih.pparts ?_ h
         first
           | exact hInv
           | exact menuInv_optionFlush hInv
           | exact ⟨fun kv hkv => absurd hkv (List.not_mem_nil _), hInv.2.1, hInv.2.2⟩
           | exact ⟨hInv.1, Or.inl rfl, hInv.2.2⟩
           | (obtain ⟨v, hv⟩ := lookupA_key_mem _ _ (by assumption)
              exact ⟨hInv.1, Or.inr (hInv.1 _ hv), hInv.2.2⟩)
           | (refine ⟨(menuInv_optionSaveOld hInv).1, (menuInv_optionSaveOld hInv).2.1,
                Or.inr ?_⟩
              exact lowerAlnum1_validated _ (And.left (by assumption))
                (And.right (by assumption)))
           | (have hx := by refine ih.exec ?_ (by assumption); exact hInv
              exact hx))
  rw [if_neg hc41] at h
  by_cases hc42 : goToLower (parts.getD i []) = strOf "readln"
  case pos =>
    rw [if_pos hc42] at h
    repeat' split at h
    all_goals first
      | exact Except.noConfusion h
      | (injection h with h1; subst h1; exact hInv)
      | (refine ih.pswitch ?_ h; exact hInv)
      | (refine ih.pparts ?_ h
         first
           | exact hInv
           | exact menuInv_optionFlush hInv
           | exact ⟨fun kv hkv => absurd hkv (List.not_mem_nil _), hInv.2.1, hInv.2.2⟩
           | exact ⟨hInv.1, Or.inl rfl, hInv.2.2⟩
           | (obtain ⟨v, hv⟩ := lookupA_key_mem _ _ (by assumption)
              exact ⟨hInv.1, Or.inr (hInv.1 _ hv), hInv.2.2⟩)
           | (refine ⟨(menuInv_optionSaveOld hInv).1, (menuInv_optionSaveOld hInv).2.1,
                Or.inr ?_⟩
              exact lowerAlnum1_validated _ (And.left (by assumption))
                (And.right (by assumption)))
           | (have hx := by refine ih.exec ?_ (by assumption); exact hInv
              exact hx))
  rw [if_neg hc42] at h
  by_cases hc43 : goToLower (parts.getD i []) = strOf "enter"
  case pos =>
    rw [if_pos hc43] at h
    repeat' split at h
    all_goals first
      | exact Except.noConfusion h
      | (injection h with h1; subst h1; exact hInv)
      | (refine ih.pswitch ?_ h; exact hInv)
      | (refine ih.pparts ?_ h
         first
           | exact hInv
           | exact menuInv_optionFlush hInv
           | exact ⟨fun kv hkv => absurd hkv (List.not_mem_nil _), hInv.2.1, hInv.2.2⟩
           | exact ⟨hInv.1, Or.inl rfl, hInv.2.2⟩
           | (obtain ⟨v, hv⟩ := lookupA_key_mem _ _ (by assumption)
              exact ⟨hInv.1, Or.inr (hInv.1 _ hv), hInv.2.2⟩)
           | (refine ⟨(menuInv_optionSaveOld hInv).1, (menuInv_optionSaveOld hInv).2.1,
                Or.inr ?_⟩
              exact lowerAlnum1_validated _ (And.left (by assumption))
                (And.right (by assumption)))
           | (have hx := by refine ih.exec ?_ (by assumption); exact hInv
              exact hx))
  rw [if_neg hc43] at h
  by_cases hc44 : goToLower (parts.getD i []) = strOf "choice"
  case pos =>
    rw [if_pos hc44] at h
    repeat' split at h
    all_goals first
      | exact Except.noConfusion h
      | (injection h with h1; subst h1; exact hInv)
      | (refine ih.pswitch ?_ h; exact hInv)
      | (refine ih.pparts ?_ h
         first
           | exact hInv
           | exact menuInv_optionFlush hInv
           | exact ⟨fun kv hkv => absurd hkv (List.not_mem_nil _), hInv.2.1, hInv.2.2⟩
           | exact ⟨hInv.1, Or.inl rfl, hInv.2.2⟩
           | (obtain ⟨v, hv⟩ := lookupA_key_mem _ _ (by assumption)
              exact ⟨hInv.1, Or.inr (hInv.1 _ hv), hInv.2.2⟩)
           | (refine ⟨(menuInv_optionSaveOld hInv).1, (menuInv_optionSaveOld hInv).2.1,
                Or.inr ?_⟩
              exact lowerAlnum1_validated _ (And.left (by assumption))
                (And.right (by assumption)))
           | (have hx := by refine ih.exec ?_ (by assumption); exact hInv
              exact hx))
  rw [if_neg hc44] at h
  by_cases hc45 : goToLower (parts.getD i []) = strOf "ifentered"
  case pos =>
    rw [if_pos hc45] at h
    repeat' split at h
    all_goals first
      | exact Except.noConfusion h
      | (injection h with h1; subst h1; exact hInv)
      | (refine ih.pswitch ?_ h; exact hInv)
      | (refine ih.pparts ?_ h
         first
           | exact hInv
           | exact menuInv_optionFlush hInv
           | exact ⟨fun kv hkv => absurd hkv (List.not_mem_nil _), hInv.2.1, hInv.2.2⟩
           | exact ⟨hInv.1, Or.inl rfl, hInv.2.2⟩
           | (obtain ⟨v, hv⟩ := lookupA_key_mem _ _ (by assumption)
              exact ⟨hInv.1, Or.inr (hInv.1 _ hv), hInv.2.2⟩)
           | (refine ⟨(menuInv_optionSaveOld hInv).1, (menuInv_optionSaveOld hInv).2.1,
                Or.inr ?_⟩
              exact lowerAlnum1_validated _ (And.left (by assumption))
                (And.right (by assumption)))
           | (have hx := by refine ih.exec ?_ (by assumption); exact hInv
              exact hx))
  rw [if_neg hc45] at h
  by_cases hc46 : goToLower (parts.getD i []) = strOf "top"
  case pos =>
    rw [if_pos hc46] at h
    repeat' split at h
    all_goals first
      | exact Except.noConfusion h
      | (injection h with h1; subst h1; exact hInv)
      | (refine ih.pswitch ?_ h; exact hInv)
      | (refine ih.pparts ?_ h
         first
           | exact hInv
           | exact menuInv_optionFlush hInv
           | exact ⟨fun kv hkv => absurd hkv (List.not_mem_nil _), hInv.2.1, hInv.2.2⟩
           | exact ⟨hInv.1, Or.inl rfl, hInv.2.2⟩
           | (obtain ⟨v, hv⟩ := lookupA_key_mem _ _ (by assumption)
              exact ⟨hInv.1, Or.inr (hInv.1 _ hv), hInv.2.2⟩)
           | (refine ⟨(menuInv_optionSaveOld hInv).1, (menuInv_optionSaveOld hInv).2.1,
                Or.inr ?_⟩
              exact lowerAlnum1_validated _ (And.left (by assumption))
                (And.right (by assumption)))
           | (have hx := by refine ih.exec ?_ (by assumption); exact hInv
              exact hx))
  rw [if_neg hc46] at h
  by_cases hc47 : goToLower (parts.getD i []) = strOf "goto" ∨ goToLower (parts.getD i []) = strOf "jump"
  case pos =>
    rw [if_pos hc47] at h
    repeat' split at h
    all_goals first
      | exact Except.noConfusion h
      | (injection h with h1; subst h1; exact hInv)
      | (refine ih.pswitch ?_ h; exact hInv)
      | (refine ih.pparts ?_ h
         first
           | exact hInv
           | exact menuInv_optionFlush hInv
           | exact ⟨fun kv hkv => absurd hkv (List.not_mem_nil _), hInv.2.1, hInv.2.2⟩
           | exact ⟨hInv.1, Or.inl rfl, hInv.2.2⟩
           | (obtain ⟨v, hv⟩ := lookupA_key_mem _ _ (by assumption)
              exact ⟨hInv.1, Or.inr (hInv.1 _ hv), hInv.2.2⟩)
           | (refine ⟨(menuInv_optionSaveOld hInv).1, (menuInv_optionSaveOld hInv).2.1,
                Or.inr ?_⟩
              exact lowerAlnum1_validated _ (And.left (by assumption))
                (And.right (by assumption)))
           | (have hx := by refine ih.exec ?_ (by assumption); exact hInv
              exact hx))
  rw [if_neg hc47] at h
  by_cases hc48 : goToLower (parts.getD i []) = strOf "quit"
  case pos =>
    rw [if_pos hc48] at h
    repeat' split at h
    all_goals first
      | exact Except.noConfusion h
      | (injection h with h1; subst h1; exact hInv)
      | (refine ih.pswitch ?_ h; exact hInv)
      | (refine ih.pparts ?_ h
         first
           | exact hInv
           | exact menuInv_optionFlush hInv
           | exact ⟨fun kv hkv => absurd hkv (List.not_mem_nil _), hInv.2.1, hInv.2.2⟩
           | exact ⟨hInv.1, Or.inl rfl, hInv.2.2⟩
           | (obtain ⟨v, hv⟩ := lookupA_key_mem _ _ (by assumption)
              exact ⟨hInv.1, Or.inr (hInv.1 _ hv), hInv.2.2⟩)
           | (refine ⟨(menuInv_optionSaveOld hInv).1, (menuInv_optionSaveOld hInv).2.1,
                Or.inr ?_⟩
              exact lowerAlnum1_validated _ (And.left (by assumption))
                (And.right (by assumption)))
           | (have hx := by refine ih.exec ?_ (by assumption); exact hInv
              exact hx))
  rw [if_neg hc48] at h
  by_cases hc49 : goToLower (parts.getD i []) = strOf "exit"
  case pos =>
    rw [if_pos hc49] at h
    repeat' split at h
    all_goals first
      | exact Except.noConfusion h
      | (injection h with h1; subst h1; exact hInv)
      | (refine ih.pswitch ?_ h; exact hInv)
      | (refine ih.pparts ?_ h
         first
           | exact hInv
           | exact menuInv_optionFlush hInv
           | exact ⟨fun kv hkv => absurd hkv (List.not_mem_nil _), hInv.2.1, hInv.2.2⟩
           | exact ⟨hInv.1, Or.inl rfl, hInv.2.2⟩
           | (obtain ⟨v, hv⟩ := lookupA_key_mem _ _ (by assumption)
              exact ⟨hInv.1, Or.inr (hInv.1 _ hv), hInv.2.2⟩)
           | (refine ⟨(menuInv_optionSaveOld hInv).1, (menuInv_optionSaveOld hInv).2.1,
                Or.inr ?_⟩
              exact lowerAlnum1_validated _ (And.left (by assumption))
                (And.right (by assumption)))
           | (have hx := by refine ih.exec ?_ (by assumption); exact hInv
              exact hx))
  rw [if_neg hc49] at h
  by_cases hc50 : goToLower (parts.getD i []) = strOf "label"
  case pos =>
    rw [if_pos hc50] at h
    repeat' split at h
    all_goals first
      | exact Except.noConfusion h
      | (injection h with h1; subst h1; exact hInv)
      | (refine ih.pswitch ?_ h; exact hInv)
      | (refine ih.pparts ?_ h
         first
           | exact hInv
           | exact menuInv_optionFlush hInv
           | exact ⟨fun kv hkv => absurd hkv (List.not_mem_nil _), hInv.2.1, hInv.2.2⟩
           | exact ⟨hInv.1, Or.inl rfl, hInv.2.2⟩
           | (obtain ⟨v, hv⟩ := lookupA_key_mem _ _ (by assumption)
              exact ⟨hInv.1, Or.inr (hInv.1 _ hv), hInv.2.2⟩)
           | (refine ⟨(menuInv_optionSaveOld hInv).1, (menuInv_optionSaveOld hInv).2.1,
                Or.inr ?_⟩
              exact lowerAlnum1_validated _ (And.left (by assumption))
                (And.right (by assumption)))
           | (have hx := by refine ih.exec ?_ (by assumption); exact hInv
              exact hx))
  rw [if_neg hc50] at h
  by_cases hc51 : goToLower (parts.getD i []) = strOf "ansopt"
  case pos =>
    rw [if_pos hc51] at h
    repeat' split at h
    all_goals first
      | exact Except.noConfusion h
      | (injection h with h1; subst h1; exact hInv)
      | (refine ih.pswitch ?_ h; exact hInv)
      | (refine ih.pparts ?_ h
         first
           | exact hInv
           | exact menuInv_optionFlush hInv
           | exact ⟨fun kv hkv => absurd hkv (List.not_mem_nil _), hInv.2.1, hInv.2.2⟩
           | exact ⟨hInv.1, Or.inl rfl, hInv.2.2⟩
           | (obtain ⟨v, hv⟩ := lookupA_key_mem _ _ (by assumption)
              exact ⟨hInv.1, Or.inr (hInv.1 _ hv), hInv.2.2⟩)
           | (refine ⟨(menuInv_optionSaveOld hInv).1, (menuInv_optionSaveOld hInv).2.1,
                Or.inr ?_⟩
              exact lowerAlnum1_validated _ (And.left (by assumption))
                (And.right (by assumption)))
           | (have hx := by refine ih.exec ?_ (by assumption); exact hInv
              exact hx))
  rw [if_neg hc51] at h
  by_cases hc52 : goToLower (parts.getD i []) = strOf "ansreq"
  case pos =>
    rw [if_pos hc52] at h
    repeat' split at h
    all_goals first
      | exact Except.noConfusion h
      | (injection h with h1; subst h1; exact hInv)
      | (refine ih.pswitch ?_ h; exact hInv)
      | (refine ih.pparts ?_ h
         first
           | exact hInv
           | exact menuInv_optionFlush hInv
           | exact ⟨fun kv hkv => absurd hkv (List.not_mem_nil _), hInv.2.1, hInv.2.2⟩
           | exact ⟨hInv.1, Or.inl rfl, hInv.2.2⟩
           | (obtain ⟨v, hv⟩ := lookupA_key_mem _ _ (by assumption)
              exact ⟨hInv.1, Or.inr (hInv.1 _ hv), hInv.2.2⟩)
           | (refine ⟨(menuInv_optionSaveOld hInv).1, (menuInv_optionSaveOld hInv).2.1,
                Or.inr ?_⟩
              exact lowerAlnum1_validated _ (And.left (by assumption))
                (And.right (by assumption)))
           | (have hx := by refine ih.exec ?_ (by assumption); exact hInv
              exact hx))
  rw [if_neg hc52] at h
  by_cases hc53 : goToLower (parts.getD i []) = strOf "store"
  case pos =>
    rw [if_pos hc53] at h
    repeat' split at h
    all_goals first
      | exact Except.noConfusion h
      | (injection h with h1; subst h1; exact hInv)
      | (refine ih.pswitch ?_ h; exact hInv)
      | (refine ih.pparts ?_ h
         first
           | exact hInv
           | exact menuInv_optionFlush hInv
           | exact ⟨fun kv hkv => absurd hkv (List.not_mem_nil _), hInv.2.1, hInv.2.2⟩
           | exact ⟨hInv.1, Or.inl rfl, hInv.2.2⟩
           | (obtain ⟨v, hv⟩ := lookupA_key_mem _ _ (by assumption)
              exact ⟨hInv.1, Or.inr (hInv.1 _ hv), hInv.2.2⟩)
           | (refine ⟨(menuInv_optionSaveOld hInv).1, (menuInv_optionSaveOld hInv).2.1,
                Or.inr ?_⟩
              exact lowerAlnum1_validated _ (And.left (by assumption))
                (And.right (by assumption)))
           | (have hx := by refine ih.exec ?_ (by assumption); exact hInv
              exact hx))
  rw [if_neg hc53] at h
  by_cases hc54 : goToLower (parts.getD i []) = strOf "write"
  case pos =>
    rw [if_pos hc54] at h
    repeat' split at h
    all_goals first
      | exact Except.noConfusion h
      | (injection h with h1; subst h1; exact hInv)
      | (refine ih.pswitch ?_ h; exact hInv)
      | (refine ih.pparts ?_ h
         first
           | exact hInv
           | exact menuInv_optionFlush hInv
           | exact ⟨fun kv hkv => absurd hkv (List.not_mem_nil _), hInv.2.1, hInv.2.2⟩
           | exact ⟨hInv.1, Or.inl rfl, hInv.2.2⟩
           | (obtain ⟨v, hv⟩ := lookupA_key_mem _ _ (by assumption)
              exact ⟨hInv.1, Or.inr (hInv.1 _ hv), hInv.2.2⟩)
           | (refine ⟨(menuInv_optionSaveOld hInv).1, (menuInv_optionSaveOld hInv).2.1,
                Or.inr ?_⟩
              exact lowerAlnum1_validated _ (And.left (by assumption))
                (And.right (by assumption)))
           | (have hx := by refine ih.exec ?_ (by assumption); exact hInv
              exact hx))
  rw [if_neg hc54] at h
  by_cases hc55 : goToLower (parts.getD i []) = strOf "color" ∨ goToLower (parts.getD i []) = strOf "nocolor" ∨ goToLower (parts.getD i []) = strOf "endcolor"
  case pos =>
    rw [if_pos hc55] at h
    repeat' split at h
    all_goals first
      | exact Except.noConfusion h
      | (injection h with h1; subst h1; exact hInv)
      | (refine ih.pswitch ?_ h; exact hInv)
      | (refine ih.pparts ?_ h
         first
           | exact hInv
           | exact menuInv_optionFlush hInv
           | exact ⟨fun kv hkv => absurd hkv (List.not_mem_nil _), hInv.2.1, hInv.2.2⟩
           | exact ⟨hInv.1, Or.inl rfl, hInv.2.2⟩
           | (obtain ⟨v, hv⟩ := lookupA_key_mem _ _ (by assumption)
              exact ⟨hInv.1, Or.inr (hInv.1 _ hv), hInv.2.2⟩)
           | (refine ⟨(menuInv_optionSaveOld hInv).1, (menuInv_optionSaveOld hInv).2.1,
                Or.inr ?_⟩
              exact lowerAlnum1_validated _ (And.left (by assumption))
                (And.right (by assumption)))
           | (have hx := by refine ih.exec ?_ (by assumption); exact hInv
              exact hx))
  rw [if_neg hc55] at h
  by_cases hc56 : goToLower (parts.getD i []) = strOf "colour"
  case pos =>
    rw [if_pos hc56] at h
    repeat' split at h
    all_goals first
      | exact Except.noConfusion h
      | (injection h with h1; subst h1; exact hInv)
      | (refine ih.pswitch ?_ h; exact hInv)
      | (refine ih.pparts ?_ h
         first
           | exact hInv
           | exact menuInv_optionFlush hInv
           | exact ⟨fun kv hkv => absurd hkv (List.not_mem_nil _), hInv.2.1, hInv.2.2⟩
           | exact ⟨hInv.1, Or.inl rfl, hInv.2.2⟩
           | (obtain ⟨v, hv⟩ := lookupA_key_mem _ _ (by assumption)
              exact ⟨hInv.1, Or.inr (hInv.1 _ hv), hInv.2.2⟩)
           | (refine ⟨(menuInv_optionSaveOld hInv).1, (menuInv_optionSaveOld hInv).2.1,
                Or.inr ?_⟩
              exact lowerAlnum1_validated _ (And.left (by assumption))
                (And.right (by assumption)))
           | (have hx := by refine ih.exec ?_ (by assumption); exact hInv
              exact hx))
  rw [if_neg hc56] at h
  by_cases hc57 : goToLower (parts.getD i []) = strOf "nocolour"
  case pos =>
    rw [if_pos hc57] at h
    repeat' split at h
    all_goals first
      | exact Except.noConfusion h
      | (injection h with h1; subst h1; exact hInv)
      | (refine ih.pswitch ?_ h; exact hInv)
      | (refine ih.pparts ?_ h
         first
           | exact hInv
           | exact menuInv_optionFlush hInv
           | exact ⟨fun kv hkv => absurd hkv (List.not_mem_nil _), hInv.2.1, hInv.2.2⟩
           | exact ⟨hInv.1, Or.inl rfl, hInv.2.2⟩
           | (obtain ⟨v, hv⟩ := lookupA_key_mem _ _ (by assumption)
              exact ⟨hInv.1, Or.inr (hInv.1 _ hv), hInv.2.2⟩)
           | (refine ⟨(menuInv_optionSaveOld hInv).1, (menuInv_optionSaveOld hInv).2.1,
                Or.inr ?_⟩
              exact lowerAlnum1_validated _ (And.left (by assumption))
                (And.right (by assumption)))
           | (have hx := by refine ih.exec ?_ (by assumption); exact hInv
              exact hx))
  rw [if_neg hc57] at h
  by_cases hc58 : goToLower (parts.getD i []) = strOf "endcolour"
  case pos =>
    rw [if_pos hc58] at h
    repeat' split at h
    all_goals first
      | exact Except.noConfusion h
      | (injection h with h1; subst h1; exact hInv)
      | (refine ih.pswitch ?_ h; exact hInv)
      | (refine ih.pparts ?_ h
         first
           | exact hInv
           | exact menuInv_optionFlush hInv
           | exact ⟨fun kv hkv => absurd hkv (List.not_mem_nil _), hInv.2.1, hInv.2.2⟩
           | exact ⟨hInv.1, Or.inl rfl, hInv.2.2⟩
           | (obtain ⟨v, hv⟩ := lookupA_key_mem _ _ (by assumption)
              exact ⟨hInv.1, Or.inr (hInv.1 _ hv), hInv.2.2⟩)
           | (refine ⟨(menuInv_optionSaveOld hInv).1, (menuInv_optionSaveOld hInv).2.1,
                Or.inr ?_⟩
              exact lowerAlnum1_validated _ (And.left (by assumption))
                (And.right (by assumption)))
           | (have hx := by refine ih.exec ?_ (by assumption); exact hInv
              exact hx))
  rw [if_neg hc58] at h
  by_cases hc59 : goToLower (parts.getD i []) = strOf "copy"
  case pos =>
    rw [if_pos hc59] at h
    repeat' split at h
    all_goals first
      | exact Except.noConfusion h
      | (injection h with h1; subst h1; exact hInv)
      | (refine ih.pswitch ?_ h; exact hInv)
      | (refine ih.pparts ?_ h
         first
           | exact hInv
           | exact menuInv_optionFlush hInv
           | exact ⟨fun kv hkv => absurd hkv (List.not_mem_nil _), hInv.2.1, hInv.2.2⟩
           | exact ⟨hInv.1, Or.inl rfl, hInv.2.2⟩
           | (obtain ⟨v, hv⟩ := lookupA_key_mem _ _ (by assumption)
              exact ⟨hInv.1, Or.inr (hInv.1 _ hv), hInv.2.2⟩)
           | (refine ⟨(menuInv_optionSaveOld hInv).1, (menuInv_optionSaveOld hInv).2.1,
                Or.inr ?_⟩
              exact lowerAlnum1_validated _ (And.left (by assumption))
                (And.right (by assumption)))
           | (have hx := by refine ih.exec ?_ (by assumption); exact hInv
              exact hx))
  rw [if_neg hc59] at h
  by_cases hc60 : goToLower (parts.getD i []) = strOf "more"
  case pos =>
    rw [if_pos hc60] at h
    repeat' split at h
    all_goals first
      | exact Except.noConfusion h
      | (injection h with h1; subst h1; exact hInv)
      | (refine ih.pswitch ?_ h; exact hInv)
      | (refine ih.pparts ?_ h
         first
           | exact hInv
           | exact menuInv_optionFlush hInv
           | exact ⟨fun kv hkv => absurd hkv (List.not_mem_nil _), hInv.2.1, hInv.2.2⟩
           | exact ⟨hInv.1, Or.inl rfl, hInv.2.2⟩
           | (obtain ⟨v, hv⟩ := lookupA_key_mem _ _ (by assumption)
              exact ⟨hInv.1, Or.inr (hInv.1 _ hv), hInv.2.2⟩)
           | (refine ⟨(menuInv_optionSaveOld hInv).1, (menuInv_optionSaveOld hInv).2.1,
                Or.inr ?_⟩
              exact lowerAlnum1_validated _ (And.left (by assumption))
                (And.right (by assumption)))
           | (have hx := by refine ih.exec ?_ (by assumption); exact hInv
              exact hx))
  rw [if_neg hc60] at h
  by_cases hc61 : goToLower (parts.getD i []) = strOf "moreon"
  case pos =>
    rw [if_pos hc61] at h
    repeat' split at h
    all_goals first
      | exact Except.noConfusion h
      | (injection h with h1; subst h1; exact hInv)
      | (refine ih.pswitch ?_ h; exact hInv)
      | (refine ih.pparts ?_ h
         first
           | exact hInv
           | exact menuInv_optionFlush hInv
           | exact ⟨fun kv hkv => absurd hkv (List.not_mem_nil _), hInv.2.1, hInv.2.2⟩
           | exact ⟨hInv.1, Or.inl rfl, hInv.2.2⟩
           | (obtain ⟨v, hv⟩ := lookupA_key_mem _ _ (by assumption)
              exact ⟨hInv.1, Or.inr (hInv.1 _ hv), hInv.2.2⟩)
           | (refine ⟨(menuInv_optionSaveOld hInv).1, (menuInv_optionSaveOld hInv).2.1,
                Or.inr ?_⟩
              exact lowerAlnum1_validated _ (And.left (by assumption))
                (And.right (by assumption)))
           | (have hx := by refine ih.exec ?_ (by assumption); exact hInv
              exact hx))
  rw [if_neg hc61] at h
  by_cases hc62 : goToLower (parts.getD i []) = strOf "moreoff"
  case pos =>
    rw [if_pos hc62] at h
    repeat' split at h
    all_goals first
      | exact Except.noConfusion h
      | (injection h with h1; subst h1; exact hInv)
      | (refine ih.pswitch ?_ h; exact hInv)
      | (refine ih.pparts ?_ h
         first
           | exact hInv
           | exact menuInv_optionFlush hInv
           | exact ⟨fun kv hkv => absurd hkv (List.not_mem_nil _), hInv.2.1, hInv.2.2⟩
           | exact ⟨hInv.1, Or.inl rfl, hInv.2.2⟩
           | (obtain ⟨v, hv⟩ := lookupA_key_mem _ _ (by assumption)
              exact ⟨hInv.1, Or.inr (hInv.1 _ hv), hInv.2.2⟩)
           | (refine ⟨(menuInv_optionSaveOld hInv).1, (menuInv_optionSaveOld hInv).2.1,
                Or.inr ?_⟩
              exact lowerAlnum1_validated _ (And.left (by assumption))
                (And.right (by assumption)))
           | (have hx := by refine ih.exec ?_ (by assumption); exact hInv
              exact hx))
  rw [if_neg hc62] at h
  refine ih.pswitch ?_ h
  exact hInv

set_option maxHeartbeats 4000000 in
theorem engineStepMenuInv {e : Engine} (ih : EngineMenuInv e) : EngineMenuInv (engineStep e) := by
  constructor
  case interp =>
    intro env input vars includes st pr h
    simp only [engineStep] at h
    exact ih.loop ⟨by simp, Or.inl rfl, Or.inl rfl⟩ h
  case finish =>
    intro env vars includes output st pr hInv h
    simp only [engineStep, bind, Except.bind] at h
    repeat' split at h
    all_goals first
      | exact Except.noConfusion h
      | (injection h with h1; subst h1
         first
           | exact menuInv_optionFlush hInv
           | (rename_i heq
              have hd := ih.disp (menuInv_optionFlush hInv) heq
              exact hd))
  case disp =>
    intro env f vars includes st pr hInv h
    simp only [engineStep, bind, Except.bind] at h
    repeat' split at h
    all_goals first
      | exact Except.noConfusion h
      | (injection h with h1; subst h1; exact hInv)
      | exact ih.interp h
  case exec =>
    intro env f vars st pr hInv h
    simp only [engineStep, bind, Except.bind] at h
    repeat' split at h
    all_goals first
      | exact Except.noConfusion h
      | (injection h with h1; subst h1
         first
           | exact hInv
           | (rename_i heq; have hd := ih.interp heq; exact hd))
  case ptok =>
    intro env c style vars includes st out hInv h
    simp only [engineStep] at h
    exact ih.pparts (by exact hInv) h
  case pswitch =>
    intro env parts i part result sf slf style vars includes st out hInv h
    simp only [engineStep, bind, Except.bind] at h
    repeat' split at h
    all_goals first
      | exact Except.noConfusion h
      | exact ih.pparts (by exact hInv) h
      | exact ih.vreg (by exact hInv) h
  case vreg =>
    intro env parts i part result sf slf style vars includes st out hInv h
    simp only [engineStep, bind, Except.bind] at h
    repeat' split at h
    all_goals first
      | exact Except.noConfusion h
      | exact ih.pparts (by exact hInv) h
  case post =>
    intro env original vars includes pos start endR output style c st pr hInv h
    simp only [engineStep, bind, Except.bind] at h
    repeat' split at h
    all_goals first
      | exact Except.noConfusion h
      | (refine ih.finish ?_ h
         first
           | exact hInv
           | (have hd := ih.disp hInv (by assumption); exact hd))
      | (refine ih.loop ?_ h
         first
           | exact hInv
           | (have hd := menuInv_linkStep (fun hi hq => ih.disp hi hq) hInv (by assumption)
              exact hd))
  case loop =>
    intro env original vars includes pos output style a b st pr hInv h
    simp only [engineStep, bind, Except.bind] at h
    by_cases hpos : pos < List.length original
    case neg => rw [if_neg hpos] at h; exact ih.finish hInv h
    rw [if_pos hpos] at h
    repeat' split at h
    all_goals try first
      | exact Except.noConfusion h
      | (injection h with h1; subst h1
         first
           | exact hInv
           | (have he := menuInv_emitMore_eq hInv (by assumption); exact he)
           | (have he := menuInv_emitMore_eq hInv (by assumption)
              have hp := by refine ih.ptok ?_ (by assumption); exact he
              first
                | exact hp
                | exact menuInv_handleMore hp)
           | (have hp := by refine ih.ptok ?_ (by assumption); exact hInv
              first
                | exact hp
                | exact menuInv_handleMore hp))
      | (refine ih.finish ?_ h
         first
           | exact hInv
           | exact menuInv_emitPlain _ _ _ _ _ hInv
           | (have he := menuInv_emitMore_eq hInv (by assumption)
              first
                | exact he
                | exact menuInv_emitPlain _ _ _ _ _ he
                | (have hp := by refine ih.ptok ?_ (by assumption); exact he
                   exact hp)))
      | (refine ih.loop ?_ h
         first
           | exact hInv
           | exact menuInv_emitPlain _ _ _ _ _ hInv
           | (have he := menuInv_emitMore_eq hInv (by assumption)
              first
                | exact he
                | (have hp := by refine ih.ptok ?_ (by assumption); exact he
                   first
                     | exact hp
                     | exact menuInv_handleMore hp)))
      | (refine ih.post ?_ h
         first
           | (have he := menuInv_emitMore_eq hInv (by assumption)
              have hp := by refine ih.ptok ?_ (by assumption); exact he
              first
                | exact hp
                | exact menuInv_handleMore hp))
    next x e0 heq =>
      by_cases hcb : charAt (List.drop pos original) (e0 + 1) = some '['
      case pos =>
        rw [if_pos hcb] at h
        exact ih.loop (menuInv_emitPlain _ _ _ _ _ hInv) h
      case neg =>
        rw [if_neg hcb] at h
        repeat' split at h
        all_goals try first
          | exact Except.noConfusion h
          | (injection h with h1; subst h1
             first
               | exact hInv
               | (have he := menuInv_emitMore_eq hInv (by assumption); exact he)
               | (have he := menuInv_emitMore_eq hInv (by assumption)
                  have hp := by
                    refine ih.ptok ?_ (by assumption)
                    first
                      | exact he
                      | (split <;> exact he)
                  first
                    | exact hp
                    | (refine menuInv_handleMore ?_; exact hp)))
          | (refine ih.finish ?_ h
             first
               | exact hInv
               | (have he := menuInv_emitMore_eq hInv (by assumption)
                  first
                    | exact he
                    | exact menuInv_emitPlain _ _ _ _ _ he
                    | (have hp := by
                         refine ih.ptok ?_ (by assumption)
                         first
                           | exact he
                           | (split <;> exact he)
                       exact hp)))
          | (refine ih.loop ?_ h
             first
               | exact hInv
               | (have he := menuInv_emitMore_eq hInv (by assumption)
                  first
                    | exact he
                    | (have hp := by
                         refine ih.ptok ?_ (by assumption)
                         first
                           | exact he
                           | (split <;> exact he)
                       exact hp)))
          | (refine ih.post ?_ h
             first
               | (have he := menuInv_emitMore_eq hInv (by assumption)
                  have hp := by
                    refine ih.ptok ?_ (by assumption)
                    first
                      | exact he
                      | (split <;> exact he)
                  first
                    | exact hp
                    | (refine menuInv_handleMore ?_; exact hp)))
  case pparts =>
    exact fun hInv h => engineStepPParts ih hInv h

theorem engineMenuInv : ∀ n, EngineMenuInv (engine n) :=
  fun n => Nat.rec engineZeroMenuInv (fun _ ih => engineStepMenuInv ih) n

/-- C10: after any successful interpret run, every key stored in the
menu-options map and every non-empty MenuResponse value is a single
lowercase ASCII alphanumeric character: option lowercases and validates
the id before storing (mecca.go:1165-1186) and menuwait lowercases the
input byte before matching (mecca.go:1187-1214), so menu matching is
case-insensitive and the caller never observes an uppercase selection. -/
theorem c10_menu_lowercase_invariant (fuel : Nat) (env : Env) (input : Str)
    (vars : Vars) (includes : List Str) (st : IState) (pr : Str × IState)
    (h : interpret fuel env input vars includes st = .ok pr) :
    (∀ kv ∈ pr.2.menuOptions, lowerAlnum1 kv.1 = true) ∧
    (MenuResponse pr.2 = [] ∨ lowerAlnum1 (MenuResponse pr.2) = true) :=
  ⟨((engineMenuInv fuel).interp h).1, ((engineMenuInv fuel).interp h).2.1⟩

/-- Witness for C10: the run of c10tmpl on input byte A succeeds, stores
only the lowercase keys a and b, and returns the lowercase selection a. -/
theorem c10_menu_lowercase_invariant_witness :
    interpret 60 c10env c10tmpl [] [] c10st = .ok c10pr ∧
    ((∀ kv ∈ c10pr.2.menuOptions, lowerAlnum1 kv.1 = true) ∧
     (MenuResponse c10pr.2 = [] ∨ lowerAlnum1 (MenuResponse c10pr.2) = true)) :=
  ⟨by decide, c10_menu_lowercase_invariant 60 c10env c10tmpl [] [] c10st c10pr (by decide)⟩

end Mecca
